import Mathlib

/-
Verification of the MarketLens agent backend (be/agent_service.py,
be/agent_tools.py, be/llm_client.py) via a shallow embedding in Lean 4.

Python dictionaries, lists and scalars are modelled by the inductive
type JVal; Python truthiness, dict.get, subscripting and slicing are
modelled by the helper functions below. Exceptions are modelled by
Except String. Machine time is modelled by integer seconds.
-/

namespace MarketLens

/-- Model of a Python JSON-like value (dict, list, str, int-like number,
bool, None). Float payloads are carried opaquely; no claim computes with
them. -/
inductive JVal : Type
  | null : JVal
  | bool (b : Bool) : JVal
  | num (n : Int) : JVal
  | str (s : String) : JVal
  | arr (xs : List JVal) : JVal
  | obj (fields : List (String × JVal)) : JVal
deriving Inhabited

/-- Lookup of a key in an association list, first match wins (Python dict
lookup; insertion order preserved elsewhere). -/
def jfind : List (String × JVal) → String → Option JVal
  | [], _ => none
  | (k, v) :: rest, key => if k = key then some v else jfind rest key

/-- Field lookup on a JVal when it is a dict, none otherwise. -/
def jfield (v : JVal) (key : String) : Option JVal :=
  match v with
  | JVal.obj fs => jfind fs key
  | _ => none

/-- Python truthiness of a value. -/
def truthy : JVal → Bool
  | JVal.null => false
  | JVal.bool b => b
  | JVal.num n => n != 0
  | JVal.str s => s != ""
  | JVal.arr xs => !xs.isEmpty
  | JVal.obj fs => !fs.isEmpty

/-- Python dict.get(key, default): raises AttributeError on non-dicts. -/
def dget (v : JVal) (key : String) (dflt : JVal) : Except String JVal :=
  match v with
  | JVal.obj fs => Except.ok ((jfind fs key).getD dflt)
  | _ => Except.error "AttributeError: object has no attribute get"

/-- Python subscript v[key] on a dict: KeyError when absent, TypeError on
non-dicts (string keys only occur in the source). -/
def dsub (v : JVal) (key : String) : Except String JVal :=
  match v with
  | JVal.obj fs =>
    match jfind fs key with
    | some x => Except.ok x
    | none => Except.error ("KeyError: " ++ key)
  | _ => Except.error "TypeError: value is not subscriptable"

/-- Python v[0]: first element of a list, first character of a string. -/
def pyIndex0 (v : JVal) : Except String JVal :=
  match v with
  | JVal.arr (x :: _) => Except.ok x
  | JVal.arr [] => Except.error "IndexError: list index out of range"
  | JVal.str s =>
    match s.data with
    | c :: _ => Except.ok (JVal.str (String.mk [c]))
    | [] => Except.error "IndexError: string index out of range"
  | _ => Except.error "TypeError: value is not subscriptable"

/-- Python slice v[:n] on lists and strings; TypeError otherwise. -/
def pySlice (v : JVal) (n : Nat) : Except String JVal :=
  match v with
  | JVal.arr xs => Except.ok (JVal.arr (xs.take n))
  | JVal.str s => Except.ok (JVal.str (String.mk (s.data.take n)))
  | _ => Except.error "TypeError: value cannot be sliced"

/-- Python iteration over a value: a list yields its elements, a string its
one-character substrings; other values are not iterable here. -/
def pyIter (v : JVal) : Except String (List JVal) :=
  match v with
  | JVal.arr xs => Except.ok xs
  | JVal.str s => Except.ok (s.data.map (fun c => JVal.str (String.mk [c])))
  | _ => Except.error "TypeError: value is not iterable"

/-- Python str.upper() on a plain string; tickers are ASCII, where the
character-wise Char.toUpper map agrees with Python upper. -/
def pyUpperStr (s : String) : String :=
  String.mk (s.data.map Char.toUpper)

/-- Python str.upper() on a string value; AttributeError otherwise. -/
def pyUpper (v : JVal) : Except String String :=
  match v with
  | JVal.str s => Except.ok (pyUpperStr s)
  | _ => Except.error "AttributeError: object has no attribute upper"

/-- Python str() of a value as used inside f-strings; the container forms
are abbreviated (no claim depends on the repr of a container). -/
def pyStr : JVal → String
  | JVal.null => "None"
  | JVal.bool b => if b then "True" else "False"
  | JVal.num n => toString n
  | JVal.str s => s
  | JVal.arr _ => "[...]"
  | JVal.obj _ => "{...}"

/-- Python min(v, n) where the source compares a JSON value against an int
literal; bool counts as an int, anything else raises TypeError. -/
def pyMinNum (v : JVal) (n : Int) : Except String JVal :=
  match v with
  | JVal.num m => Except.ok (JVal.num (min m n))
  | JVal.bool b => Except.ok (JVal.num (min (if b then (1 : Int) else 0) n))
  | _ => Except.error "TypeError: int comparison with non-int"

/-- Python `x or d`: the left operand when truthy, the right otherwise. -/
def pyOr (v d : JVal) : JVal :=
  if truthy v then v else d

/-- Python `"k" in v` for dict (key membership), list (element membership)
and string (substring); TypeError otherwise. Substring search is a plain
character-list scan. -/
def beginsWith : List Char → List Char → Bool
  | _, [] => true
  | [], _ :: _ => false
  | h :: hs, n :: ns => h = n && beginsWith hs ns

def strHasSub (hay needle : List Char) : Bool :=
  match hay with
  | [] => needle.isEmpty
  | _ :: rest => beginsWith hay needle || strHasSub rest needle

def pyIn (key : String) (v : JVal) : Except String Bool :=
  match v with
  | JVal.obj fs => Except.ok (jfind fs key).isSome
  | JVal.arr xs =>
    Except.ok (xs.any (fun x => match x with
      | JVal.str s => s = key
      | _ => false))
  | JVal.str s => Except.ok (strHasSub s.data key.data)
  | _ => Except.error "TypeError: argument is not a container"

/-- Association-list lookup keyed by string (Python dict lookup). -/
def alistFind {β : Type} : List (String × β) → String → Option β
  | [], _ => none
  | (k, v) :: rest, key => if k = key then some v else alistFind rest key

/-- Association-list update: replace in place when the key exists, append
otherwise (Python dict assignment, insertion order preserved). -/
def alistUpsert {β : Type} : List (String × β) → String → β → List (String × β)
  | [], key, v => [(key, v)]
  | (k, w) :: rest, key, v =>
    if k = key then (key, v) :: rest else (k, w) :: alistUpsert rest key v

theorem alistFind_upsert {β : Type} (l : List (String × β)) (key : String) (v : β) :
    alistFind (alistUpsert l key v) key = some v := by
  induction l with
  | nil => simp [alistUpsert, alistFind]
  | cons p rest ih =>
    cases p with
    | mk k w =>
      by_cases h : k = key
      · simp [alistUpsert, alistFind, h]
      · simp [alistUpsert, alistFind, h, ih]

/-- Server-side TTL cache for tool results, agent_tools.py class ToolCache.
A Python entry dict holds data and its write timestamp; the wall clock is
the integer now argument (the source reads time.time on each call). -/
structure ToolCache where
  cache : List (String × (JVal × Int))
  ttl : Int
deriving Inhabited

/-- ToolCache.get: an entry is returned while now minus its timestamp is
below the ttl; otherwise the read is a miss. There is no eviction. -/
def ToolCache.get (c : ToolCache) (now : Int) (key : String) : Option JVal :=
  match alistFind c.cache key with
  | some (data, ts) => if now - ts < c.ttl then some data else none
  | none => none

/-- ToolCache.set: store the payload under the key with the current time. -/
def ToolCache.set (c : ToolCache) (now : Int) (key : String) (data : JVal) :
    ToolCache :=
  { c with cache := alistUpsert c.cache key (data, now) }

/-- Chat message, llm_client.py ConversationManager message dicts. -/
structure Message where
  role : String
  content : String
deriving DecidableEq, Inhabited

/-- One conversation session: ordered messages plus creation time. -/
structure Session where
  messages : List Message
  created_at : Nat
deriving DecidableEq, Inhabited

/-- Conversation store, llm_client.py class ConversationManager; the
constructor sets ttl_hours to 24. Time is Nat seconds. -/
structure ConversationManager where
  conversations : List (String × Session)
  ttl_hours : Nat
deriving DecidableEq, Inhabited

/-- ConversationManager._cleanup_old_conversations: delete every session
whose creation time is before now minus the retention window. -/
def ConversationManager.cleanup_old_conversations (cm : ConversationManager)
    (now : Nat) : ConversationManager :=
  { cm with conversations :=
      cm.conversations.filter (fun p => !(p.2.created_at < now - cm.ttl_hours * 3600)) }

/-- ConversationManager.add_message: create the session on first use,
append the message, then opportunistically sweep expired sessions. -/
def ConversationManager.add_message (cm : ConversationManager)
    (conversation_id role content : String) (now : Nat) : ConversationManager :=
  let sess :=
    match alistFind cm.conversations conversation_id with
    | some s => s
    | none => { messages := [], created_at := now }
  let sess' := { sess with
    messages := sess.messages ++ [{ role := role, content := content }] }
  let cm' := { cm with
    conversations := alistUpsert cm.conversations conversation_id sess' }
  cm'.cleanup_old_conversations now

/-- ConversationManager.get_history: unknown id gives the empty list;
otherwise the Python slice messages[-(last_n * 2):] is taken when the
session holds more than last_n * 2 messages. For last_n = 0 that slice is
[-0:], which is the whole list. -/
def ConversationManager.get_history (cm : ConversationManager)
    (conversation_id : String) (last_n : Nat) : List Message :=
  match alistFind cm.conversations conversation_id with
  | none => []
  | some s =>
    let messages := s.messages
    if messages.length > last_n * 2 then
      if last_n = 0 then messages
      else messages.drop (messages.length - last_n * 2)
    else messages

/-- ConversationManager.clear_conversation: drop the session if present. -/
def ConversationManager.clear_conversation (cm : ConversationManager)
    (conversation_id : String) : ConversationManager :=
  { cm with conversations :=
      cm.conversations.filter (fun p => !(p.1 = conversation_id)) }

/-- C9: a server TTL cache entry written at t0 is returned unchanged by a
get of the same key at any t with t - t0 < 300 and is a miss at any t
with t - t0 >= 300; expiry is checked lazily on read (get never mutates)
and the cache offers no explicit invalidation operation. -/
theorem c9_server_cache_ttl (c : ToolCache) (key : String) (data : JVal)
    (t0 t : Int) (httl : c.ttl = 300) :
    (t - t0 < 300 → (c.set t0 key data).get t key = some data) ∧
    (300 ≤ t - t0 → (c.set t0 key data).get t key = none) := by
  unfold ToolCache.set ToolCache.get
  simp only [alistFind_upsert, httl]
  constructor
  · intro h; simp [h]
  · intro h; simp [not_lt.mpr h]

theorem c9_server_cache_ttl_witness :
    ((ToolCache.mk [] 300).set 0 "get_news:AAPL" (JVal.str "payload")).get 100
        "get_news:AAPL" = some (JVal.str "payload") ∧
    ((ToolCache.mk [] 300).set 0 "get_news:AAPL" (JVal.str "payload")).get 300
        "get_news:AAPL" = none :=
  ⟨(c9_server_cache_ttl (ToolCache.mk [] 300) "get_news:AAPL"
      (JVal.str "payload") 0 100 rfl).1 (by decide),
   (c9_server_cache_ttl (ToolCache.mk [] 300) "get_news:AAPL"
      (JVal.str "payload") 0 300 rfl).2 (by decide)⟩

/-- C8 counterexample: the claim quantifies over every lastN, but for
lastN = 0 the Python slice messages[-0:] returns the whole list, so a
session holding one message yields one message, not at most 2 * 0 = 0. -/
theorem c8_get_history_counterexample :
    ¬ ((ConversationManager.mk [("c", Session.mk [Message.mk "user" "hi"] 0)] 24).get_history
        "c" 0).length ≤ 2 * 0 := by
  decide

/-- C8 amended: for every lastN >= 1, get_history returns the suffix of
the session messages of length min (2 * lastN) (session length) in the
original append order, all messages when the session holds 2 * lastN or
fewer, and the empty sequence for an unknown id. (The original claim also
allowed lastN = 0, where the code returns the whole list instead.) -/
theorem c8_get_history (cm : ConversationManager) (conversation_id : String)
    (n : Nat) (hn : 1 ≤ n) :
    (alistFind cm.conversations conversation_id = none →
      cm.get_history conversation_id n = []) ∧
    (∀ s, alistFind cm.conversations conversation_id = some s →
      cm.get_history conversation_id n =
        s.messages.drop (s.messages.length - 2 * n) ∧
      (cm.get_history conversation_id n).length =
        min (2 * n) s.messages.length ∧
      ∃ pre, pre ++ cm.get_history conversation_id n = s.messages) := by
  constructor
  · intro h
    unfold ConversationManager.get_history
    simp [h]
  · intro s hs
    unfold ConversationManager.get_history
    simp only [hs]
    have hn0 : ¬ (n = 0) := by omega
    by_cases hlen : s.messages.length > n * 2
    · simp only [hlen, if_true, hn0, if_false]
      refine ⟨by rw [Nat.mul_comm], ?_, ?_⟩
      · rw [List.length_drop]
        omega
      · exact ⟨s.messages.take (s.messages.length - n * 2),
          by rw [Nat.mul_comm]; exact List.take_append_drop _ _⟩
    · simp only [hlen, if_false]
      refine ⟨?_, ?_, ⟨[], by simp⟩⟩
      · have : s.messages.length - 2 * n = 0 := by omega
        rw [this, List.drop_zero]
      · omega

/-- Twelve appended messages with lastN = 5: exactly the last ten come
back, in order. -/
theorem c8_get_history_witness :
    1 ≤ 5 ∧
    (ConversationManager.mk
        [("c", Session.mk
          [Message.mk "user" "m1", Message.mk "assistant" "m2",
           Message.mk "user" "m3", Message.mk "assistant" "m4",
           Message.mk "user" "m5", Message.mk "assistant" "m6",
           Message.mk "user" "m7", Message.mk "assistant" "m8",
           Message.mk "user" "m9", Message.mk "assistant" "m10",
           Message.mk "user" "m11", Message.mk "assistant" "m12"] 0)] 24).get_history
      "c" 5 =
      [Message.mk "user" "m3", Message.mk "assistant" "m4",
       Message.mk "user" "m5", Message.mk "assistant" "m6",
       Message.mk "user" "m7", Message.mk "assistant" "m8",
       Message.mk "user" "m9", Message.mk "assistant" "m10",
       Message.mk "user" "m11", Message.mk "assistant" "m12"] := by
  refine ⟨by decide, ?_⟩
  have h := (c8_get_history
    (ConversationManager.mk
        [("c", Session.mk
          [Message.mk "user" "m1", Message.mk "assistant" "m2",
           Message.mk "user" "m3", Message.mk "assistant" "m4",
           Message.mk "user" "m5", Message.mk "assistant" "m6",
           Message.mk "user" "m7", Message.mk "assistant" "m8",
           Message.mk "user" "m9", Message.mk "assistant" "m10",
           Message.mk "user" "m11", Message.mk "assistant" "m12"] 0)] 24)
    "c" 5 (by decide)).2 _ rfl
  rw [h.1]
  decide

/-- Request-scoped Layer 1 state of agent_tools.py class ToolExecutor:
the frontend context snapshot and its bound ticker. The collaborator
services held by the Python object are modelled separately by Collab. -/
structure ToolExecutor where
  frontend_context : JVal
  context_ticker : Option String
deriving Inhabited

/-- ToolExecutor.set_context: a falsy frontend context becomes the empty
dict; an empty ticker leaves the context ticker unset. -/
def ToolExecutor.set_context (frontend_context : JVal) (ticker : String) :
    ToolExecutor :=
  { frontend_context :=
      if truthy frontend_context then frontend_context else JVal.obj [],
    context_ticker := if ticker = "" then none else some (pyUpperStr ticker) }

/-- Collaborator surface consumed by the tool handlers (polygon_api,
sentiment_service, forecast_service, rag_pipeline retriever) plus two
library operations that cannot be computed exactly in the embedding:
round3 models Python round(score, 3) on a float and may raise TypeError,
fromtimestamp_fmt models datetime.fromtimestamp(t / 1000).strftime. An
Except.error models an exception raised by the collaborator. -/
structure Collab where
  get_previous_close : String → Except String JVal
  get_ticker_details : String → Except String JVal
  get_financials_api : String → Except String JVal
  get_ticker_news : String → JVal → Except String JVal
  get_dividends_api : String → JVal → Except String JVal
  get_splits_api : String → Except String JVal
  get_aggregates : String → JVal → JVal → JVal → Except String JVal
  analyze_ticker : String → Except String JVal
  get_forecast : String → Except String JVal
  retrieve_context : JVal → String → Except String JVal
  round3 : JVal → Except String JVal
  fromtimestamp_fmt : Int → String

/-- Mutable executor state threaded through a dispatch: the server TTL
cache, the integer clock, and two instrumentation counters that record
how many server-cache reads and live collaborator calls were made. -/
structure ExecSt where
  server_cache : ToolCache
  now : Int
  cache_gets : Nat
  live_calls : Nat
deriving Inhabited

/-- Raw server-cache read (ToolCache.get on a prebuilt key), counted. -/
def cache_get_raw (st : ExecSt) (key : String) : Option JVal × ExecSt :=
  (st.server_cache.get st.now key, { st with cache_gets := st.cache_gets + 1 })

/-- Raw server-cache write (ToolCache.set on a prebuilt key). -/
def cache_set_raw (st : ExecSt) (key : String) (data : JVal) : ExecSt :=
  { st with server_cache := st.server_cache.set st.now key data }

/-- ToolExecutor._check_server_cache: Layer 2 lookup under tool:ticker. -/
def check_server_cache (st : ExecSt) (tool ticker : String) :
    Option JVal × ExecSt :=
  cache_get_raw st (tool ++ ":" ++ ticker)

/-- ToolExecutor._cache_result: Layer 2 write under tool:ticker. -/
def cache_result (st : ExecSt) (tool ticker : String) (result : JVal) :
    ExecSt :=
  cache_set_raw st (tool ++ ":" ++ ticker) result

/-- Marks one live collaborator call in the instrumentation counter. -/
def live_mark (st : ExecSt) : ExecSt :=
  { st with live_calls := st.live_calls + 1 }

/-- Mapping from tool name to frontend-context key used by
ToolExecutor._check_frontend_context. -/
def fe_mapping (tool : String) : Option String :=
  if tool = "get_stock_quote" then some "previousClose"
  else if tool = "get_company_info" then some "details"
  else if tool = "get_financials" then some "financials"
  else if tool = "get_news" then some "news"
  else if tool = "get_dividends" then some "dividends"
  else if tool = "get_stock_splits" then some "splits"
  else if tool = "analyze_sentiment" then some "sentiment"
  else none

/-- ToolExecutor._check_frontend_context: Layer 1 lookup. Returns the
mapped value when the bound ticker matches and the value is truthy;
previousClose and details are nested under the overview key. -/
def check_frontend_context (ex : ToolExecutor) (tool ticker : String) :
    Except String (Option JVal) :=
  if some (pyUpperStr ticker) ≠ ex.context_ticker then Except.ok none
  else
    match fe_mapping tool with
    | none => Except.ok none
    | some context_key => do
      let overview ← dget ex.frontend_context "overview" (JVal.obj [])
      let data ←
        if context_key = "previousClose" ∨ context_key = "details" then
          dget overview context_key JVal.null
        else
          dget ex.frontend_context context_key JVal.null
      pure (if truthy data then some data else none)

/-- Effectful map over a list with Except short-circuiting, as a Python
for-loop building a list raises out of the loop. -/
def mapExcept (f : α → Except String β) : List α → Except String (List β)
  | [] => Except.ok []
  | x :: xs => do
    let y ← f x
    let ys ← mapExcept f xs
    pure (y :: ys)

/-- One period entry of ToolExecutor._format_financials. -/
def financial_period (r : JVal) : Except String JVal := do
  let financials ← dget r "financials" (JVal.obj [])
  let income ← dget financials "income_statement" (JVal.obj [])
  let balance ← dget financials "balance_sheet" (JVal.obj [])
  let fp ← dget r "fiscal_period" (JVal.str "")
  let fy ← dget r "fiscal_year" (JVal.str "")
  let revenues ← dget income "revenues" (JVal.obj [])
  let revenue ← dget revenues "value" JVal.null
  let nil0 ← dget income "net_income_loss" (JVal.obj [])
  let net_income ← dget nil0 "value" JVal.null
  let gp0 ← dget income "gross_profit" (JVal.obj [])
  let gross_profit ← dget gp0 "value" JVal.null
  let as0 ← dget balance "assets" (JVal.obj [])
  let total_assets ← dget as0 "value" JVal.null
  let li0 ← dget balance "liabilities" (JVal.obj [])
  let total_liabilities ← dget li0 "value" JVal.null
  pure (JVal.obj
    [("period", JVal.str (pyStr fp ++ " " ++ pyStr fy)),
     ("revenue", revenue),
     ("net_income", net_income),
     ("gross_profit", gross_profit),
     ("total_assets", total_assets),
     ("total_liabilities", total_liabilities)])

/-- ToolExecutor._format_financials. -/
def format_financials (ticker : String) (data : JVal) : Except String JVal := do
  let results ← dget data "results" (JVal.arr [])
  if truthy results = false then
    pure (JVal.obj [("error", JVal.str "No financial data available")])
  else do
    let sliced ← pySlice results 4
    let items ← pyIter sliced
    let periods ← mapExcept financial_period items
    pure (JVal.obj [("ticker", JVal.str ticker), ("periods", JVal.arr periods)])

/-- The Python default expression (data if isinstance(data, list) else [])
shared by the news, dividends and splits formatters. -/
def list_or_empty (data : JVal) : JVal :=
  match data with
  | JVal.arr _ => data
  | _ => JVal.arr []

/-- One article entry of ToolExecutor._format_news. -/
def news_item (a : JVal) : Except String JVal := do
  let title ← dget a "title" (JVal.str "")
  let pub ← dget a "publisher" JVal.null
  let source_v ←
    match pub with
    | JVal.obj pf => pure ((jfind pf "name").getD (JVal.str "Unknown"))
    | _ => dget a "publisher" (JVal.str "Unknown")
  let pu ← dget a "published_utc" (JVal.str "")
  let published ← pySlice pu 10
  let d0 ← dget a "description" (JVal.str "")
  let description ← pySlice d0 200
  let url ← dget a "article_url" (JVal.str "")
  pure (JVal.obj
    [("title", title), ("source", source_v), ("published", published),
     ("description", description), ("url", url)])

/-- ToolExecutor._format_news. The Python default expression
(data if isinstance(data, list) else []) is evaluated, but data.get
raises first whenever data is a list. -/
def format_news (ticker : String) (data : JVal) : Except String JVal := do
  let articles ← dget data "results" (list_or_empty data)
  if truthy articles = false then
    pure (JVal.obj [("error", JVal.str "No news articles available")])
  else do
    let sliced ← pySlice articles 10
    let items ← pyIter sliced
    let formatted ← mapExcept news_item items
    pure (JVal.obj
      [("ticker", JVal.str ticker), ("articles", JVal.arr formatted)])

/-- One dividend entry of ToolExecutor._format_dividends. -/
def dividend_item (d : JVal) : Except String JVal := do
  let ex_date ← dget d "ex_dividend_date" (JVal.str "")
  let pay_date ← dget d "pay_date" (JVal.str "")
  let amount ← dget d "cash_amount" JVal.null
  let frequency ← dget d "frequency" JVal.null
  pure (JVal.obj
    [("ex_date", ex_date), ("pay_date", pay_date), ("amount", amount),
     ("frequency", frequency)])

/-- ToolExecutor._format_dividends. -/
def format_dividends (ticker : String) (data : JVal) : Except String JVal := do
  let results ← dget data "results" (list_or_empty data)
  if truthy results = false then
    pure (JVal.obj
      [("message", JVal.str "No dividend data available for this ticker.")])
  else do
    let sliced ← pySlice results 10
    let items ← pyIter sliced
    let formatted ← mapExcept dividend_item items
    pure (JVal.obj
      [("ticker", JVal.str ticker), ("dividends", JVal.arr formatted)])

/-- One split entry of ToolExecutor._format_splits, including the derived
ratio string built by the f-string from split_to and split_from. -/
def split_item (s : JVal) : Except String JVal := do
  let execution_date ← dget s "execution_date" (JVal.str "")
  let split_from ← dget s "split_from" JVal.null
  let split_to ← dget s "split_to" JVal.null
  let rt ← dget s "split_to" (JVal.num 1)
  let rf ← dget s "split_from" (JVal.num 1)
  pure (JVal.obj
    [("execution_date", execution_date), ("split_from", split_from),
     ("split_to", split_to),
     ("ratio", JVal.str (pyStr rt ++ "-for-" ++ pyStr rf))])

/-- ToolExecutor._format_splits. -/
def format_splits (ticker : String) (data : JVal) : Except String JVal := do
  let results ← dget data "results" (list_or_empty data)
  if truthy results = false then
    pure (JVal.obj
      [("message", JVal.str "No stock split history found for this ticker.")])
  else do
    let sliced ← pySlice results 10
    let items ← pyIter sliced
    let formatted ← mapExcept split_item items
    pure (JVal.obj
      [("ticker", JVal.str ticker), ("splits", JVal.arr formatted)])

/-- A tool handler: Python handler(**args) including the keyword-binding
TypeErrors, returning either a result value or a raised exception, plus
the threaded executor state. -/
abbrev Handler :=
  ToolExecutor → Collab → List (String × JVal) → ExecSt →
    Except String JVal × ExecSt

/-- Keyword binding check of handler(**args): every supplied key must be a
declared parameter. -/
def arg_keys_ok (args : List (String × JVal)) (allowed : List String) : Bool :=
  args.all (fun p => allowed.contains p.1)

/-- Required keyword argument; missing gives the TypeError that Python
raises before the handler body runs. -/
def getRequired (args : List (String × JVal)) (k : String) :
    Except String JVal :=
  match jfind args k with
  | some v => Except.ok v
  | none => Except.error ("TypeError: missing required argument " ++ k)

/-- Optional keyword argument with its Python default. -/
def getOptional (args : List (String × JVal)) (k : String) (dflt : JVal) :
    JVal :=
  (jfind args k).getD dflt

/-- Shape of a quote result from a previous-close results list; the cached
flag appends the Layer 1 source tag. -/
def quote_from_results (ticker : String) (results : JVal) (cached : Bool) :
    Except String JVal := do
  let r ← pyIndex0 results
  let c ← dget r "c" JVal.null
  let o ← dget r "o" JVal.null
  let h ← dget r "h" JVal.null
  let l ← dget r "l" JVal.null
  let v ← dget r "v" JVal.null
  let vw ← dget r "vw" JVal.null
  pure (JVal.obj
    ([("ticker", JVal.str ticker), ("close", c), ("open", o), ("high", h),
      ("low", l), ("volume", v), ("vwap", vw)] ++
     (if cached then [("source", JVal.str "cached")] else [])))

/-- Layer 3 of _get_stock_quote: live previous-close fetch, empty results
give an error value that is not cached, otherwise the shaped result is
written back to Layer 2. -/
def get_stock_quote_live (env : Collab) (ticker : String) (st : ExecSt) :
    Except String JVal × ExecSt :=
  let st2 := live_mark st
  match env.get_previous_close ticker with
  | Except.error e => (Except.error e, st2)
  | Except.ok data =>
    match dget data "results" (JVal.arr []) with
    | Except.error e => (Except.error e, st2)
    | Except.ok results =>
      if truthy results = false then
        (Except.ok (JVal.obj [("error", JVal.str "No quote data available")]), st2)
      else
        match quote_from_results ticker results false with
        | Except.error e => (Except.error e, st2)
        | Except.ok v => (Except.ok v, cache_result st2 "get_stock_quote" ticker v)

/-- Layers 2 and 3 of _get_stock_quote. A cached value is returned only
when truthy, as the Python code tests `if cached:`. -/
def get_stock_quote_l23 (env : Collab) (ticker : String) (st : ExecSt) :
    Except String JVal × ExecSt :=
  let (cached, st1) := check_server_cache st "get_stock_quote" ticker
  match cached with
  | some v => if truthy v then (Except.ok v, st1) else get_stock_quote_live env ticker st1
  | none => get_stock_quote_live env ticker st1

/-- ToolExecutor._get_stock_quote. -/
def tool_get_stock_quote : Handler := fun ex env args st =>
  if !arg_keys_ok args ["ticker"] then
    (Except.error "TypeError: unexpected keyword argument", st)
  else
    match (do
        let t ← getRequired args "ticker"
        let ticker ← pyUpper t
        let fe ← check_frontend_context ex "get_stock_quote" ticker
        Except.ok (ticker, fe) : Except String (String × Option JVal)) with
    | Except.error e => (Except.error e, st)
    | Except.ok (ticker, some fe_data) =>
      (match dget fe_data "results" (JVal.arr []) with
       | Except.error e => (Except.error e, st)
       | Except.ok results =>
         if truthy results then
           match quote_from_results ticker results true with
           | Except.error e => (Except.error e, st)
           | Except.ok v => (Except.ok v, st)
         else get_stock_quote_l23 env ticker st)
    | Except.ok (ticker, none) => get_stock_quote_l23 env ticker st

/-- Shape of a company-info result; the cached flag appends the Layer 1
source tag. -/
def company_shape (ticker : String) (r : JVal) (cached : Bool) :
    Except String JVal := do
  let name ← dget r "name" JVal.null
  let d0 ← dget r "description" (JVal.str "")
  let description ← pySlice d0 500
  let market_cap ← dget r "market_cap" JVal.null
  let sector ← dget r "sic_description" JVal.null
  let homepage_url ← dget r "homepage_url" JVal.null
  let total_employees ← dget r "total_employees" JVal.null
  pure (JVal.obj
    ([("ticker", JVal.str ticker), ("name", name),
      ("description", description), ("market_cap", market_cap),
      ("sector", sector), ("homepage_url", homepage_url),
      ("total_employees", total_employees)] ++
     (if cached then [("source", JVal.str "cached")] else [])))

/-- Layer 3 of _get_company_info. -/
def get_company_info_live (env : Collab) (ticker : String) (st : ExecSt) :
    Except String JVal × ExecSt :=
  let st2 := live_mark st
  match env.get_ticker_details ticker with
  | Except.error e => (Except.error e, st2)
  | Except.ok data =>
    match dget data "results" (JVal.obj []) with
    | Except.error e => (Except.error e, st2)
    | Except.ok r =>
      if truthy r = false then
        (Except.ok (JVal.obj [("error", JVal.str "No company data available")]), st2)
      else
        match company_shape ticker r false with
        | Except.error e => (Except.error e, st2)
        | Except.ok v => (Except.ok v, cache_result st2 "get_company_info" ticker v)

/-- Layers 2 and 3 of _get_company_info. -/
def get_company_info_l23 (env : Collab) (ticker : String) (st : ExecSt) :
    Except String JVal × ExecSt :=
  let (cached, st1) := check_server_cache st "get_company_info" ticker
  match cached with
  | some v => if truthy v then (Except.ok v, st1) else get_company_info_live env ticker st1
  | none => get_company_info_live env ticker st1

/-- ToolExecutor._get_company_info. -/
def tool_get_company_info : Handler := fun ex env args st =>
  if !arg_keys_ok args ["ticker"] then
    (Except.error "TypeError: unexpected keyword argument", st)
  else
    match (do
        let t ← getRequired args "ticker"
        let ticker ← pyUpper t
        let fe ← check_frontend_context ex "get_company_info" ticker
        Except.ok (ticker, fe) : Except String (String × Option JVal)) with
    | Except.error e => (Except.error e, st)
    | Except.ok (ticker, some fe_data) =>
      (match (do
          let r ← dget fe_data "results" fe_data
          company_shape ticker r true : Except String JVal) with
       | Except.error e => (Except.error e, st)
       | Except.ok v => (Except.ok v, st))
    | Except.ok (ticker, none) => get_company_info_l23 env ticker st

/-- Layer 3 of _get_financials: the formatted result is cached even when
it is the error-shaped value. -/
def get_financials_live (env : Collab) (ticker : String) (st : ExecSt) :
    Except String JVal × ExecSt :=
  let st2 := live_mark st
  match env.get_financials_api ticker with
  | Except.error e => (Except.error e, st2)
  | Except.ok data =>
    match format_financials ticker data with
    | Except.error e => (Except.error e, st2)
    | Except.ok v => (Except.ok v, cache_result st2 "get_financials" ticker v)

/-- Layers 2 and 3 of _get_financials. -/
def get_financials_l23 (env : Collab) (ticker : String) (st : ExecSt) :
    Except String JVal × ExecSt :=
  let (cached, st1) := check_server_cache st "get_financials" ticker
  match cached with
  | some v => if truthy v then (Except.ok v, st1) else get_financials_live env ticker st1
  | none => get_financials_live env ticker st1

/-- ToolExecutor._get_financials. -/
def tool_get_financials : Handler := fun ex env args st =>
  if !arg_keys_ok args ["ticker"] then
    (Except.error "TypeError: unexpected keyword argument", st)
  else
    match (do
        let t ← getRequired args "ticker"
        let ticker ← pyUpper t
        let fe ← check_frontend_context ex "get_financials" ticker
        Except.ok (ticker, fe) : Except String (String × Option JVal)) with
    | Except.error e => (Except.error e, st)
    | Except.ok (ticker, some fe_data) => (format_financials ticker fe_data, st)
    | Except.ok (ticker, none) => get_financials_l23 env ticker st

/-- Layer 3 of _get_news, with the clamped limit forwarded to the news
collaborator; the formatted result is cached even when error-shaped. -/
def get_news_live (env : Collab) (ticker : String) (limit : JVal)
    (st : ExecSt) : Except String JVal × ExecSt :=
  let st2 := live_mark st
  match env.get_ticker_news ticker limit with
  | Except.error e => (Except.error e, st2)
  | Except.ok data =>
    match format_news ticker data with
    | Except.error e => (Except.error e, st2)
    | Except.ok v => (Except.ok v, cache_result st2 "get_news" ticker v)

/-- Layers 2 and 3 of _get_news. -/
def get_news_l23 (env : Collab) (ticker : String) (limit : JVal)
    (st : ExecSt) : Except String JVal × ExecSt :=
  let (cached, st1) := check_server_cache st "get_news" ticker
  match cached with
  | some v => if truthy v then (Except.ok v, st1) else get_news_live env ticker limit st1
  | none => get_news_live env ticker limit st1

/-- Argument parsing, limit clamping (limit = min(limit or 10, 20)) and
Layer 1 lookup of _get_news. -/
def tool_get_news_prelude (ex : ToolExecutor) (args : List (String × JVal)) :
    Except String (String × JVal × Option JVal) := do
  let t ← getRequired args "ticker"
  let ticker ← pyUpper t
  let limit ← pyMinNum (pyOr (getOptional args "limit" (JVal.num 10)) (JVal.num 10)) 20
  let fe ← check_frontend_context ex "get_news" ticker
  Except.ok (ticker, limit, fe)

/-- ToolExecutor._get_news. -/
def tool_get_news : Handler := fun ex env args st =>
  if !arg_keys_ok args ["ticker", "limit"] then
    (Except.error "TypeError: unexpected keyword argument", st)
  else
    match tool_get_news_prelude ex args with
    | Except.error e => (Except.error e, st)
    | Except.ok (ticker, _, some fe_data) => (format_news ticker fe_data, st)
    | Except.ok (ticker, limit, none) => get_news_l23 env ticker limit st

/-- One result entry of _search_knowledge_base. -/
def kb_item (env : Collab) (ctx : JVal) : Except String JVal := do
  let meta ← dsub ctx "metadata"
  let title ← dget meta "title" (JVal.str "Untitled")
  let source_v ← dget meta "source" (JVal.str "Unknown")
  let pd ← dget meta "published_date" (JVal.str "")
  let date ← pySlice pd 10
  let cp ← dget meta "content_preview" (JVal.str "")
  let fc ← dget meta "full_content" cp
  let content ← pySlice fc 500
  let score ← dsub ctx "score"
  let rounded ← env.round3 score
  pure (JVal.obj
    [("title", title), ("source", source_v), ("date", date),
     ("content", content), ("relevance_score", rounded)])

/-- ToolExecutor._search_knowledge_base: no caching, always a live
retriever query. -/
def tool_search_knowledge_base : Handler := fun _ env args st =>
  if !arg_keys_ok args ["query", "ticker"] then
    (Except.error "TypeError: unexpected keyword argument", st)
  else
    match (do
        let q ← getRequired args "query"
        let t ← getRequired args "ticker"
        let ticker ← pyUpper t
        Except.ok (q, ticker) : Except String (JVal × String)) with
    | Except.error e => (Except.error e, st)
    | Except.ok (q, ticker) =>
      let st2 := live_mark st
      match env.retrieve_context q ticker with
      | Except.error e => (Except.error e, st2)
      | Except.ok contexts =>
        if truthy contexts = false then
          (Except.ok (JVal.obj
            [("message", JVal.str "No relevant articles found in knowledge base. Try using get_news for recent headlines.")]), st2)
        else
          match (do
              let sliced ← pySlice contexts 5
              let items ← pyIter sliced
              let results ← mapExcept (kb_item env) items
              pure (JVal.obj
                [("ticker", JVal.str ticker),
                 ("results", JVal.arr results)]) : Except String JVal) with
          | Except.error e => (Except.error e, st2)
          | Except.ok v => (Except.ok v, st2)

/-- One top-post entry of the _analyze_sentiment Layer 1 branch, whose
sentiment label falls back to the post sentiment_label field. -/
def sent_post_fe (p : JVal) : Except String JVal := do
  let platform ← dget p "platform" JVal.null
  let c0 ← dget p "content" (JVal.str "")
  let content ← pySlice c0 200
  let sent ← dget p "sentiment" (JVal.obj [])
  let sl ← dget p "sentiment_label" (JVal.str "")
  let label ← dget sent "label" sl
  pure (JVal.obj
    [("platform", platform), ("content", content), ("sentiment", label)])

/-- One top-post entry of the _analyze_sentiment live branch, whose
sentiment label falls back to the empty string. -/
def sent_post_live (p : JVal) : Except String JVal := do
  let platform ← dget p "platform" JVal.null
  let c0 ← dget p "content" (JVal.str "")
  let content ← pySlice c0 200
  let sent ← dget p "sentiment" (JVal.obj [])
  let label ← dget sent "label" (JVal.str "")
  pure (JVal.obj
    [("platform", platform), ("content", content), ("sentiment", label)])

/-- Shared sentiment result shape over an aggregate dict and a posts
value; the per-post shaping and trailing source tag differ per branch. -/
def sentiment_shape (ticker : String) (aggregate posts : JVal)
    (post_fn : JVal → Except String JVal) (cached : Bool) :
    Except String JVal := do
  let label ← dget aggregate "label" JVal.null
  let score ← dget aggregate "score" JVal.null
  let confidence ← dget aggregate "confidence" JVal.null
  let post_count ← dget aggregate "post_count" JVal.null
  let sources ← dget aggregate "sources" (JVal.obj [])
  let sliced ← pySlice posts 5
  let items ← pyIter sliced
  let top ← mapExcept post_fn items
  pure (JVal.obj
    ([("ticker", JVal.str ticker), ("overall_sentiment", label),
      ("score", score), ("confidence", confidence),
      ("post_count", post_count), ("sources", sources),
      ("top_posts", JVal.arr top)] ++
     (if cached then [("source", JVal.str "cached")] else [])))

/-- Layer 3 of _analyze_sentiment. -/
def analyze_sentiment_live (env : Collab) (ticker : String) (st : ExecSt) :
    Except String JVal × ExecSt :=
  let st2 := live_mark st
  match env.analyze_ticker ticker with
  | Except.error e => (Except.error e, st2)
  | Except.ok data =>
    match (do
        let aggregate ← dget data "aggregate" (JVal.obj [])
        let posts ← dget data "posts" (JVal.arr [])
        sentiment_shape ticker aggregate posts sent_post_live false :
          Except String JVal) with
    | Except.error e => (Except.error e, st2)
    | Except.ok v => (Except.ok v, cache_result st2 "analyze_sentiment" ticker v)

/-- Layers 2 and 3 of _analyze_sentiment. -/
def analyze_sentiment_l23 (env : Collab) (ticker : String) (st : ExecSt) :
    Except String JVal × ExecSt :=
  let (cached, st1) := check_server_cache st "analyze_sentiment" ticker
  match cached with
  | some v => if truthy v then (Except.ok v, st1) else analyze_sentiment_live env ticker st1
  | none => analyze_sentiment_live env ticker st1

/-- ToolExecutor._analyze_sentiment. In the Layer 1 branch the aggregate
defaults to the whole snapshot when no aggregate key exists. -/
def tool_analyze_sentiment : Handler := fun ex env args st =>
  if !arg_keys_ok args ["ticker"] then
    (Except.error "TypeError: unexpected keyword argument", st)
  else
    match (do
        let t ← getRequired args "ticker"
        let ticker ← pyUpper t
        let fe ← check_frontend_context ex "analyze_sentiment" ticker
        Except.ok (ticker, fe) : Except String (String × Option JVal)) with
    | Except.error e => (Except.error e, st)
    | Except.ok (ticker, some fe_data) =>
      (match (do
          let aggregate ← dget fe_data "aggregate" fe_data
          let posts ← dget fe_data "posts" (JVal.arr [])
          sentiment_shape ticker aggregate posts sent_post_fe true :
            Except String JVal) with
       | Except.error e => (Except.error e, st)
       | Except.ok v => (Except.ok v, st))
    | Except.ok (ticker, none) => analyze_sentiment_l23 env ticker st

/-- One prediction entry of _get_price_forecast. -/
def forecast_item (f : JVal) : Except String JVal := do
  let date ← dget f "date" JVal.null
  let predicted_close ← dget f "predicted_close" JVal.null
  let upper_bound ← dget f "upper_bound" JVal.null
  let lower_bound ← dget f "lower_bound" JVal.null
  pure (JVal.obj
    [("date", date), ("predicted_close", predicted_close),
     ("upper_bound", upper_bound), ("lower_bound", lower_bound)])

/-- Layer 3 of _get_price_forecast: a collaborator error field is passed
through uncached; otherwise the first ten predictions are shaped and the
result cached. -/
def get_price_forecast_live (env : Collab) (ticker : String) (st : ExecSt) :
    Except String JVal × ExecSt :=
  let st2 := live_mark st
  match env.get_forecast ticker with
  | Except.error e => (Except.error e, st2)
  | Except.ok data =>
    match pyIn "error" data with
    | Except.error e => (Except.error e, st2)
    | Except.ok true =>
      (match dsub data "error" with
       | Except.error e => (Except.error e, st2)
       | Except.ok msg => (Except.ok (JVal.obj [("error", msg)]), st2))
    | Except.ok false =>
      match (do
          let forecast ← dget data "forecast" (JVal.arr [])
          let model_info ← dget data "model_info" (JVal.obj [])
          let sliced ← pySlice forecast 10
          let items ← pyIter sliced
          let predictions ← mapExcept forecast_item items
          pure (JVal.obj
            [("ticker", JVal.str ticker),
             ("predictions", JVal.arr predictions),
             ("model_info", model_info)]) : Except String JVal) with
      | Except.error e => (Except.error e, st2)
      | Except.ok v => (Except.ok v, cache_result st2 "get_price_forecast" ticker v)

/-- ToolExecutor._get_price_forecast: no Layer 1; Layer 2 then Layer 3. -/
def tool_get_price_forecast : Handler := fun _ env args st =>
  if !arg_keys_ok args ["ticker"] then
    (Except.error "TypeError: unexpected keyword argument", st)
  else
    match (do
        let t ← getRequired args "ticker"
        pyUpper t : Except String String) with
    | Except.error e => (Except.error e, st)
    | Except.ok ticker =>
      let (cached, st1) := check_server_cache st "get_price_forecast" ticker
      match cached with
      | some v =>
        if truthy v then (Except.ok v, st1)
        else get_price_forecast_live env ticker st1
      | none => get_price_forecast_live env ticker st1

/-- Layer 3 of _get_dividends. -/
def get_dividends_live (env : Collab) (ticker : String) (limit : JVal)
    (st : ExecSt) : Except String JVal × ExecSt :=
  let st2 := live_mark st
  match env.get_dividends_api ticker (pyOr limit (JVal.num 10)) with
  | Except.error e => (Except.error e, st2)
  | Except.ok data =>
    match format_dividends ticker data with
    | Except.error e => (Except.error e, st2)
    | Except.ok v => (Except.ok v, cache_result st2 "get_dividends" ticker v)

/-- Layers 2 and 3 of _get_dividends. -/
def get_dividends_l23 (env : Collab) (ticker : String) (limit : JVal)
    (st : ExecSt) : Except String JVal × ExecSt :=
  let (cached, st1) := check_server_cache st "get_dividends" ticker
  match cached with
  | some v => if truthy v then (Except.ok v, st1) else get_dividends_live env ticker limit st1
  | none => get_dividends_live env ticker limit st1

/-- ToolExecutor._get_dividends. -/
def tool_get_dividends : Handler := fun ex env args st =>
  if !arg_keys_ok args ["ticker", "limit"] then
    (Except.error "TypeError: unexpected keyword argument", st)
  else
    match (do
        let t ← getRequired args "ticker"
        let ticker ← pyUpper t
        let fe ← check_frontend_context ex "get_dividends" ticker
        Except.ok (ticker, fe) : Except String (String × Option JVal)) with
    | Except.error e => (Except.error e, st)
    | Except.ok (ticker, some fe_data) => (format_dividends ticker fe_data, st)
    | Except.ok (ticker, none) =>
      get_dividends_l23 env ticker (getOptional args "limit" (JVal.num 10)) st

/-- Layer 3 of _get_stock_splits. -/
def get_stock_splits_live (env : Collab) (ticker : String) (st : ExecSt) :
    Except String JVal × ExecSt :=
  let st2 := live_mark st
  match env.get_splits_api ticker with
  | Except.error e => (Except.error e, st2)
  | Except.ok data =>
    match format_splits ticker data with
    | Except.error e => (Except.error e, st2)
    | Except.ok v => (Except.ok v, cache_result st2 "get_stock_splits" ticker v)

/-- Layers 2 and 3 of _get_stock_splits. -/
def get_stock_splits_l23 (env : Collab) (ticker : String) (st : ExecSt) :
    Except String JVal × ExecSt :=
  let (cached, st1) := check_server_cache st "get_stock_splits" ticker
  match cached with
  | some v => if truthy v then (Except.ok v, st1) else get_stock_splits_live env ticker st1
  | none => get_stock_splits_live env ticker st1

/-- ToolExecutor._get_stock_splits. -/
def tool_get_stock_splits : Handler := fun ex env args st =>
  if !arg_keys_ok args ["ticker"] then
    (Except.error "TypeError: unexpected keyword argument", st)
  else
    match (do
        let t ← getRequired args "ticker"
        let ticker ← pyUpper t
        let fe ← check_frontend_context ex "get_stock_splits" ticker
        Except.ok (ticker, fe) : Except String (String × Option JVal)) with
    | Except.error e => (Except.error e, st)
    | Except.ok (ticker, some fe_data) => (format_splits ticker fe_data, st)
    | Except.ok (ticker, none) => get_stock_splits_l23 env ticker st

/-- One OHLCV bar of _get_price_history; the bar timestamp must be a
number for datetime.fromtimestamp. -/
def price_bar (env : Collab) (bar : JVal) : Except String JVal := do
  let t ← dsub bar "t"
  let tn ← (match t with
    | JVal.num n => Except.ok n
    | _ => Except.error "TypeError: timestamp is not a number")
  let o ← dget bar "o" JVal.null
  let h ← dget bar "h" JVal.null
  let l ← dget bar "l" JVal.null
  let c ← dget bar "c" JVal.null
  let v ← dget bar "v" JVal.null
  pure (JVal.obj
    [("date", JVal.str (env.fromtimestamp_fmt tn)), ("open", o),
     ("high", h), ("low", l), ("close", c), ("volume", v)])

/-- Layer 3 of _get_price_history: live aggregates fetch; empty results
give an uncached error value, otherwise all bars are shaped and the
result is cached under the range-qualified key. -/
def get_price_history_live (env : Collab) (ticker : String)
    (from_date to_date timespan : JVal) (cache_key : String) (st : ExecSt) :
    Except String JVal × ExecSt :=
  let st2 := live_mark st
  match env.get_aggregates ticker timespan from_date to_date with
  | Except.error e => (Except.error e, st2)
  | Except.ok data =>
    match dget data "results" (JVal.arr []) with
    | Except.error e => (Except.error e, st2)
    | Except.ok results =>
      if truthy results = false then
        (Except.ok (JVal.obj
          [("error", JVal.str "No price history available for the given date range")]), st2)
      else
        match (do
            let items ← pyIter results
            let formatted ← mapExcept (price_bar env) items
            pure (JVal.obj
              [("ticker", JVal.str ticker), ("timespan", timespan),
               ("from", from_date), ("to", to_date),
               ("bars", JVal.arr formatted),
               ("count", JVal.num formatted.length)]) : Except String JVal) with
        | Except.error e => (Except.error e, st2)
        | Except.ok v => (Except.ok v, cache_set_raw st2 cache_key v)

/-- ToolExecutor._get_price_history: the Layer 2 key includes the date
range and timespan; no Layer 1. -/
def tool_get_price_history : Handler := fun _ env args st =>
  if !arg_keys_ok args ["ticker", "from_date", "to_date", "timespan"] then
    (Except.error "TypeError: unexpected keyword argument", st)
  else
    match (do
        let t ← getRequired args "ticker"
        let from_date ← getRequired args "from_date"
        let to_date ← getRequired args "to_date"
        let ticker ← pyUpper t
        Except.ok (ticker, from_date, to_date) :
          Except String (String × JVal × JVal)) with
    | Except.error e => (Except.error e, st)
    | Except.ok (ticker, from_date, to_date) =>
      let timespan := pyOr (getOptional args "timespan" JVal.null) (JVal.str "day")
      let cache_key := "get_price_history:" ++ ticker ++ ":" ++
        pyStr from_date ++ ":" ++ pyStr to_date ++ ":" ++ pyStr timespan
      let (cached, st1) := cache_get_raw st cache_key
      match cached with
      | some cv =>
        if truthy cv then (Except.ok cv, st1)
        else get_price_history_live env ticker from_date to_date timespan cache_key st1
      | none => get_price_history_live env ticker from_date to_date timespan cache_key st1

/-- The dispatch table of ToolExecutor.__init__, in source order. -/
def handlers_list : List (String × Handler) :=
  [("get_stock_quote", tool_get_stock_quote),
   ("get_company_info", tool_get_company_info),
   ("get_financials", tool_get_financials),
   ("get_news", tool_get_news),
   ("search_knowledge_base", tool_search_knowledge_base),
   ("analyze_sentiment", tool_analyze_sentiment),
   ("get_price_forecast", tool_get_price_forecast),
   ("get_dividends", tool_get_dividends),
   ("get_stock_splits", tool_get_stock_splits),
   ("get_price_history", tool_get_price_history)]

/-- ToolExecutor.execute: unknown names yield the Unknown tool error
value; a known handler runs with every raised exception caught and turned
into a Tool execution failed error value. -/
def execute (ex : ToolExecutor) (env : Collab) (st : ExecSt)
    (tool_name : String) (args : List (String × JVal)) : JVal × ExecSt :=
  match alistFind handlers_list tool_name with
  | none => (JVal.obj [("error", JVal.str ("Unknown tool: " ++ tool_name))], st)
  | some handler =>
    match handler ex env args st with
    | (Except.ok v, st') => (v, st')
    | (Except.error e, st') =>
      (JVal.obj [("error", JVal.str ("Tool execution failed: " ++ e))], st')

@[simp] theorem except_bind_ok {α β : Type} (a : α) (f : α → Except String β) :
    (Except.ok a >>= f) = f a := rfl

@[simp] theorem except_bind_error {α β : Type} (e : String)
    (f : α → Except String β) :
    ((Except.error e : Except String α) >>= f) = Except.error e := rfl

@[simp] theorem except_pure {α : Type} (a : α) :
    (pure a : Except String α) = Except.ok a := rfl

theorem alistFind_upsert_ne {β : Type} (l : List (String × β)) (k k' : String)
    (v : β) (h : ¬ k' = k) :
    alistFind (alistUpsert l k v) k' = alistFind l k' := by
  induction l with
  | nil =>
    simp only [alistUpsert, alistFind]
    rw [if_neg (fun hh => h hh.symm)]
  | cons p rest ih =>
    cases p with
    | mk a w =>
      by_cases ha : a = k
      · subst ha
        simp only [alistUpsert, if_pos rfl, alistFind]
        rw [if_neg (fun hh => h hh.symm), if_neg (fun hh => h hh.symm)]
      · simp only [alistUpsert, if_neg ha, alistFind]
        by_cases hk : a = k'
        · simp [hk]
        · simp [hk, ih]

theorem mapExcept_ok_length {α β : Type} (f : α → Except String β) :
    ∀ (xs : List α) (ys : List β), mapExcept f xs = Except.ok ys →
      ys.length = xs.length := by
  intro xs
  induction xs with
  | nil => intro ys h; simp [mapExcept] at h; simp [h.symm]
  | cons x xs ih =>
    intro ys h
    unfold mapExcept at h
    cases hx : f x with
    | error e => rw [hx] at h; simp at h
    | ok y =>
      rw [hx] at h
      simp only [except_bind_ok] at h
      cases hxs : mapExcept f xs with
      | error e => rw [hxs] at h; simp at h
      | ok ys' =>
        rw [hxs] at h
        simp only [except_bind_ok, except_pure] at h
        cases h
        simp [ih ys' hxs]

theorem mapExcept_ok_of_forall {α β : Type} (f : α → Except String β) :
    ∀ (xs : List α), (∀ x ∈ xs, ∃ y, f x = Except.ok y) →
      ∃ ys, mapExcept f xs = Except.ok ys := by
  intro xs
  induction xs with
  | nil => intro _; exact ⟨[], rfl⟩
  | cons x xs ih =>
    intro h
    obtain ⟨y, hy⟩ := h x (by simp)
    obtain ⟨ys, hys⟩ := ih (fun z hz => h z (by simp [hz]))
    exact ⟨y :: ys, by unfold mapExcept; rw [hy]; simp [hys]⟩

/-- C6: for every tool name missing from the dispatch table, execute
returns the exact Unknown tool error value for any args without touching
the state, and for a known tool any exception raised inside the handler
is caught and converted into a Tool execution failed error value, so
execute never lets an exception cross its boundary (its return type is a
plain value, not an exceptional one). -/
theorem c6_execute_never_raises (ex : ToolExecutor) (env : Collab)
    (st : ExecSt) (tool_name : String) (args : List (String × JVal)) :
    (alistFind handlers_list tool_name = none →
      execute ex env st tool_name args =
        (JVal.obj [("error", JVal.str ("Unknown tool: " ++ tool_name))], st)) ∧
    (∀ handler e st2, alistFind handlers_list tool_name = some handler →
      handler ex env args st = (Except.error e, st2) →
      execute ex env st tool_name args =
        (JVal.obj [("error", JVal.str ("Tool execution failed: " ++ e))], st2)) := by
  constructor
  · intro h
    unfold execute
    rw [h]
  · intro handler e st2 hfind hrun
    unfold execute
    rw [hfind]
    simp only [hrun]

/-- Concrete stand-in collaborators for witnesses: every live call raises
a network error (theorems quantify over all collaborators, so any
instance serves). -/
def collab_stub : Collab :=
  { get_previous_close := fun _ => Except.error "network unreachable",
    get_ticker_details := fun _ => Except.error "network unreachable",
    get_financials_api := fun _ => Except.error "network unreachable",
    get_ticker_news := fun _ _ => Except.error "network unreachable",
    get_dividends_api := fun _ _ => Except.error "network unreachable",
    get_splits_api := fun _ => Except.error "network unreachable",
    get_aggregates := fun _ _ _ _ => Except.error "network unreachable",
    analyze_ticker := fun _ => Except.error "network unreachable",
    get_forecast := fun _ => Except.error "network unreachable",
    retrieve_context := fun _ _ => Except.error "network unreachable",
    round3 := fun v => Except.ok v,
    fromtimestamp_fmt := fun _ => "1970-01-01" }

/-- Fresh executor state for witnesses: empty 300-second cache, time 0. -/
def exec_st0 : ExecSt :=
  { server_cache := { cache := [], ttl := 300 }, now := 0,
    cache_gets := 0, live_calls := 0 }

theorem c6_execute_never_raises_witness :
    execute (ToolExecutor.mk (JVal.obj []) none) collab_stub exec_st0
        "bogus_tool" [("ticker", JVal.str "AAPL")] =
      (JVal.obj [("error", JVal.str "Unknown tool: bogus_tool")], exec_st0) ∧
    execute (ToolExecutor.mk (JVal.obj []) none) collab_stub exec_st0
        "get_stock_quote" [] =
      (JVal.obj [("error",
        JVal.str "Tool execution failed: TypeError: missing required argument ticker")],
       exec_st0) :=
  ⟨(c6_execute_never_raises (ToolExecutor.mk (JVal.obj []) none) collab_stub
      exec_st0 "bogus_tool" [("ticker", JVal.str "AAPL")]).1 rfl,
   (c6_execute_never_raises (ToolExecutor.mk (JVal.obj []) none) collab_stub
      exec_st0 "get_stock_quote" []).2 tool_get_stock_quote
      "TypeError: missing required argument ticker" exec_st0 rfl rfl⟩

theorem check_fe_flat (ex : ToolExecutor) (tool tic key : String)
    (fs : List (String × JVal)) (d : JVal)
    (hct : ex.context_ticker = some tic) (hup : pyUpperStr tic = tic)
    (hfc : ex.frontend_context = JVal.obj fs)
    (hkey : fe_mapping tool = some key)
    (hnk : ¬(key = "previousClose" ∨ key = "details"))
    (hdata : jfind fs key = some d) (htr : truthy d = true) :
    check_frontend_context ex tool tic = Except.ok (some d) := by
  unfold check_frontend_context
  rw [hup, hct, if_neg (by simp), hkey]
  simp only [hfc, dget, except_bind_ok, if_neg hnk, hdata, Option.getD_some,
    except_pure, htr, if_pos]

theorem check_fe_nested (ex : ToolExecutor) (tool tic key : String)
    (fs ov : List (String × JVal)) (d : JVal)
    (hct : ex.context_ticker = some tic) (hup : pyUpperStr tic = tic)
    (hfc : ex.frontend_context = JVal.obj fs)
    (hkey : fe_mapping tool = some key)
    (hk : key = "previousClose" ∨ key = "details")
    (hov : jfind fs "overview" = some (JVal.obj ov))
    (hdata : jfind ov key = some d) (htr : truthy d = true) :
    check_frontend_context ex tool tic = Except.ok (some d) := by
  unfold check_frontend_context
  rw [hup, hct, if_neg (by simp), hkey]
  simp only [hfc, dget, except_bind_ok, hov, Option.getD_some, if_pos hk,
    hdata, except_pure, htr, if_pos]

theorem format_financials_no_source (tic : String) (d : JVal) :
    ∀ v, format_financials tic d = Except.ok v → jfield v "source" = none := by
  intro v h
  unfold format_financials at h
  cases hd : dget d "results" (JVal.arr []) with
  | error e => rw [hd] at h; simp at h
  | ok results =>
    rw [hd] at h
    simp only [except_bind_ok] at h
    by_cases ht : truthy results = false
    · rw [if_pos ht] at h
      simp only [except_pure] at h
      cases h
      rfl
    · rw [if_neg ht] at h
      cases hs : pySlice results 4 with
      | error e => rw [hs] at h; simp at h
      | ok sliced =>
        rw [hs] at h
        simp only [except_bind_ok] at h
        cases hi : pyIter sliced with
        | error e => rw [hi] at h; simp at h
        | ok items =>
          rw [hi] at h
          simp only [except_bind_ok] at h
          cases hm : mapExcept financial_period items with
          | error e => rw [hm] at h; simp at h
          | ok periods =>
            rw [hm] at h
            simp only [except_bind_ok, except_pure] at h
            cases h
            rfl

theorem format_news_no_source (tic : String) (d : JVal) :
    ∀ v, format_news tic d = Except.ok v → jfield v "source" = none := by
  intro v h
  unfold format_news at h
  cases hd : dget d "results" (list_or_empty d) with
  | error e => rw [hd] at h; simp at h
  | ok articles =>
    rw [hd] at h
    simp only [except_bind_ok] at h
    by_cases ht : truthy articles = false
    · rw [if_pos ht] at h
      simp only [except_pure] at h
      cases h
      rfl
    · rw [if_neg ht] at h
      cases hs : pySlice articles 10 with
      | error e => rw [hs] at h; simp at h
      | ok sliced =>
        rw [hs] at h
        simp only [except_bind_ok] at h
        cases hi : pyIter sliced with
        | error e => rw [hi] at h; simp at h
        | ok items =>
          rw [hi] at h
          simp only [except_bind_ok] at h
          cases hm : mapExcept news_item items with
          | error e => rw [hm] at h; simp at h
          | ok formatted =>
            rw [hm] at h
            simp only [except_bind_ok, except_pure] at h
            cases h
            rfl

theorem format_dividends_no_source (tic : String) (d : JVal) :
    ∀ v, format_dividends tic d = Except.ok v → jfield v "source" = none := by
  intro v h
  unfold format_dividends at h
  cases hd : dget d "results" (list_or_empty d) with
  | error e => rw [hd] at h; simp at h
  | ok results =>
    rw [hd] at h
    simp only [except_bind_ok] at h
    by_cases ht : truthy results = false
    · rw [if_pos ht] at h
      simp only [except_pure] at h
      cases h
      rfl
    · rw [if_neg ht] at h
      cases hs : pySlice results 10 with
      | error e => rw [hs] at h; simp at h
      | ok sliced =>
        rw [hs] at h
        simp only [except_bind_ok] at h
        cases hi : pyIter sliced with
        | error e => rw [hi] at h; simp at h
        | ok items =>
          rw [hi] at h
          simp only [except_bind_ok] at h
          cases hm : mapExcept dividend_item items with
          | error e => rw [hm] at h; simp at h
          | ok formatted =>
            rw [hm] at h
            simp only [except_bind_ok, except_pure] at h
            cases h
            rfl

theorem format_splits_no_source (tic : String) (d : JVal) :
    ∀ v, format_splits tic d = Except.ok v → jfield v "source" = none := by
  intro v h
  unfold format_splits at h
  cases hd : dget d "results" (list_or_empty d) with
  | error e => rw [hd] at h; simp at h
  | ok results =>
    rw [hd] at h
    simp only [except_bind_ok] at h
    by_cases ht : truthy results = false
    · rw [if_pos ht] at h
      simp only [except_pure] at h
      cases h
      rfl
    · rw [if_neg ht] at h
      cases hs : pySlice results 10 with
      | error e => rw [hs] at h; simp at h
      | ok sliced =>
        rw [hs] at h
        simp only [except_bind_ok] at h
        cases hi : pyIter sliced with
        | error e => rw [hi] at h; simp at h
        | ok items =>
          rw [hi] at h
          simp only [except_bind_ok] at h
          cases hm : mapExcept split_item items with
          | error e => rw [hm] at h; simp at h
          | ok formatted =>
            rw [hm] at h
            simp only [except_bind_ok, except_pure] at h
            cases h
            rfl

theorem execute_of_handler (ex : ToolExecutor) (env : Collab) (st : ExecSt)
    (tool : String) (handler : Handler) (args : List (String × JVal))
    (hfind : alistFind handlers_list tool = some handler) :
    execute ex env st tool args =
      (match handler ex env args st with
       | (Except.ok v, st') => (v, st')
       | (Except.error e, st') =>
          (JVal.obj [("error", JVal.str ("Tool execution failed: " ++ e))], st')) := by
  unfold execute
  rw [hfind]

/-- C1 amended: when the frontend snapshot ticker matches (the bound
ticker equals the uppercased requested ticker) and the mapped nested key
is present and truthy, the dispatcher answers from the snapshot alone and
neither the server TTL cache nor the live collaborator is consulted (the
executor state is returned unchanged, so no cache read, no cache write
and no live call happens); however only quote, company info and
sentiment tag the result source: cached (quote additionally requires the
snapshot previous-close to hold a non-empty results list of bar dicts,
and company info and sentiment require the snapshot fields to have their
documented shapes), while financials, news, dividends and splits return
the reformatted snapshot data with no source tag at all. -/
theorem c1_frontend_cache (ex : ToolExecutor) (env : Collab) (st : ExecSt)
    (tic : String) (fs : List (String × JVal))
    (hup : pyUpperStr tic = tic)
    (hct : ex.context_ticker = some tic)
    (hfc : ex.frontend_context = JVal.obj fs) :
    (∀ d, jfind fs "financials" = some d → truthy d = true →
      (execute ex env st "get_financials" [("ticker", JVal.str tic)]).2 = st ∧
      jfield (execute ex env st "get_financials" [("ticker", JVal.str tic)]).1
        "source" = none) ∧
    (∀ d, jfind fs "news" = some d → truthy d = true →
      (execute ex env st "get_news" [("ticker", JVal.str tic)]).2 = st ∧
      jfield (execute ex env st "get_news" [("ticker", JVal.str tic)]).1
        "source" = none) ∧
    (∀ d, jfind fs "dividends" = some d → truthy d = true →
      (execute ex env st "get_dividends" [("ticker", JVal.str tic)]).2 = st ∧
      jfield (execute ex env st "get_dividends" [("ticker", JVal.str tic)]).1
        "source" = none) ∧
    (∀ d, jfind fs "splits" = some d → truthy d = true →
      (execute ex env st "get_stock_splits" [("ticker", JVal.str tic)]).2 = st ∧
      jfield (execute ex env st "get_stock_splits" [("ticker", JVal.str tic)]).1
        "source" = none) ∧
    (∀ ov pc r0f rest, jfind fs "overview" = some (JVal.obj ov) →
      jfind ov "previousClose" = some (JVal.obj pc) →
      truthy (JVal.obj pc) = true →
      jfind pc "results" = some (JVal.arr (JVal.obj r0f :: rest)) →
      (execute ex env st "get_stock_quote" [("ticker", JVal.str tic)]).2 = st ∧
      jfield (execute ex env st "get_stock_quote" [("ticker", JVal.str tic)]).1
        "source" = some (JVal.str "cached")) ∧
    (∀ ov dt rs desc, jfind fs "overview" = some (JVal.obj ov) →
      jfind ov "details" = some (JVal.obj dt) →
      truthy (JVal.obj dt) = true →
      (jfind dt "results").getD (JVal.obj dt) = JVal.obj rs →
      (jfind rs "description").getD (JVal.str "") = JVal.str desc →
      (execute ex env st "get_company_info" [("ticker", JVal.str tic)]).2 = st ∧
      jfield (execute ex env st "get_company_info" [("ticker", JVal.str tic)]).1
        "source" = some (JVal.str "cached")) ∧
    (∀ sd ag ps, jfind fs "sentiment" = some (JVal.obj sd) →
      truthy (JVal.obj sd) = true →
      (jfind sd "aggregate").getD (JVal.obj sd) = JVal.obj ag →
      (jfind sd "posts").getD (JVal.arr []) = JVal.arr ps →
      (∀ p ∈ ps.take 5, ∃ w, sent_post_fe p = Except.ok w) →
      (execute ex env st "analyze_sentiment" [("ticker", JVal.str tic)]).2 = st ∧
      jfield (execute ex env st "analyze_sentiment" [("ticker", JVal.str tic)]).1
        "source" = some (JVal.str "cached")) := by
  refine ⟨?_, ?_, ?_, ?_, ?_, ?_, ?_⟩
  · intro d hd htr
    have hfe := check_fe_flat ex "get_financials" tic "financials" fs d hct hup
      hfc rfl (by simp) hd htr
    have hak : arg_keys_ok [("ticker", JVal.str tic)] ["ticker"] = true := rfl
    have hrun : tool_get_financials ex env [("ticker", JVal.str tic)] st =
        (format_financials tic d, st) := by
      simp [tool_get_financials, getRequired, jfind, pyUpper, hup, hfe, hak]
    rw [execute_of_handler ex env st "get_financials" tool_get_financials
      [("ticker", JVal.str tic)] rfl, hrun]
    cases hf : format_financials tic d with
    | ok v => exact ⟨rfl, format_financials_no_source tic d v hf⟩
    | error e => exact ⟨rfl, rfl⟩
  · intro d hd htr
    have hfe := check_fe_flat ex "get_news" tic "news" fs d hct hup
      hfc rfl (by simp) hd htr
    have hak : arg_keys_ok [("ticker", JVal.str tic)] ["ticker", "limit"] = true := rfl
    have hrun : tool_get_news ex env [("ticker", JVal.str tic)] st =
        (format_news tic d, st) := by
      simp [tool_get_news, tool_get_news_prelude, getRequired, getOptional,
        jfind, pyUpper, pyOr, pyMinNum, truthy, hup, hfe, hak]
    rw [execute_of_handler ex env st "get_news" tool_get_news
      [("ticker", JVal.str tic)] rfl, hrun]
    cases hf : format_news tic d with
    | ok v => exact ⟨rfl, format_news_no_source tic d v hf⟩
    | error e => exact ⟨rfl, rfl⟩
  · intro d hd htr
    have hfe := check_fe_flat ex "get_dividends" tic "dividends" fs d hct hup
      hfc rfl (by simp) hd htr
    have hak : arg_keys_ok [("ticker", JVal.str tic)] ["ticker", "limit"] = true := rfl
    have hrun : tool_get_dividends ex env [("ticker", JVal.str tic)] st =
        (format_dividends tic d, st) := by
      simp [tool_get_dividends, getRequired, jfind, pyUpper, hup, hfe, hak]
    rw [execute_of_handler ex env st "get_dividends" tool_get_dividends
      [("ticker", JVal.str tic)] rfl, hrun]
    cases hf : format_dividends tic d with
    | ok v => exact ⟨rfl, format_dividends_no_source tic d v hf⟩
    | error e => exact ⟨rfl, rfl⟩
  · intro d hd htr
    have hfe := check_fe_flat ex "get_stock_splits" tic "splits" fs d hct hup
      hfc rfl (by simp) hd htr
    have hak : arg_keys_ok [("ticker", JVal.str tic)] ["ticker"] = true := rfl
    have hrun : tool_get_stock_splits ex env [("ticker", JVal.str tic)] st =
        (format_splits tic d, st) := by
      simp [tool_get_stock_splits, getRequired, jfind, pyUpper, hup, hfe, hak]
    rw [execute_of_handler ex env st "get_stock_splits" tool_get_stock_splits
      [("ticker", JVal.str tic)] rfl, hrun]
    cases hf : format_splits tic d with
    | ok v => exact ⟨rfl, format_splits_no_source tic d v hf⟩
    | error e => exact ⟨rfl, rfl⟩
  · intro ov pc r0f rest hov hpc htr hres
    have hfe := check_fe_nested ex "get_stock_quote" tic "previousClose" fs ov
      (JVal.obj pc) hct hup hfc rfl (by simp) hov hpc htr
    have hrun : tool_get_stock_quote ex env [("ticker", JVal.str tic)] st =
        (Except.ok (JVal.obj
          [("ticker", JVal.str tic),
           ("close", (jfind r0f "c").getD JVal.null),
           ("open", (jfind r0f "o").getD JVal.null),
           ("high", (jfind r0f "h").getD JVal.null),
           ("low", (jfind r0f "l").getD JVal.null),
           ("volume", (jfind r0f "v").getD JVal.null),
           ("vwap", (jfind r0f "vw").getD JVal.null),
           ("source", JVal.str "cached")]), st) := by
      have hak : arg_keys_ok [("ticker", JVal.str tic)] ["ticker"] = true := rfl
      simp [tool_get_stock_quote, getRequired, jfind, pyUpper, hup, hfe,
        dget, hres, truthy, quote_from_results, pyIndex0, hak]
    rw [execute_of_handler ex env st "get_stock_quote" tool_get_stock_quote
      [("ticker", JVal.str tic)] rfl, hrun]
    exact ⟨rfl, rfl⟩
  · intro ov dt rs desc hov hdt htr hres hdesc
    have hfe := check_fe_nested ex "get_company_info" tic "details" fs ov
      (JVal.obj dt) hct hup hfc rfl (by simp) hov hdt htr
    have hrun : tool_get_company_info ex env [("ticker", JVal.str tic)] st =
        (Except.ok (JVal.obj
          [("ticker", JVal.str tic),
           ("name", (jfind rs "name").getD JVal.null),
           ("description", JVal.str (String.mk (desc.data.take 500))),
           ("market_cap", (jfind rs "market_cap").getD JVal.null),
           ("sector", (jfind rs "sic_description").getD JVal.null),
           ("homepage_url", (jfind rs "homepage_url").getD JVal.null),
           ("total_employees", (jfind rs "total_employees").getD JVal.null),
           ("source", JVal.str "cached")]), st) := by
      have hak : arg_keys_ok [("ticker", JVal.str tic)] ["ticker"] = true := rfl
      simp [tool_get_company_info, getRequired, jfind, pyUpper, hup, hfe,
        dget, hres, company_shape, hdesc, pySlice, hak]
    rw [execute_of_handler ex env st "get_company_info" tool_get_company_info
      [("ticker", JVal.str tic)] rfl, hrun]
    exact ⟨rfl, rfl⟩
  · intro sd ag ps hsd htr hag hps hposts
    have hfe := check_fe_flat ex "analyze_sentiment" tic "sentiment" fs
      (JVal.obj sd) hct hup hfc rfl (by simp) hsd htr
    obtain ⟨tops, htops⟩ := mapExcept_ok_of_forall sent_post_fe (ps.take 5) hposts
    have hrun : tool_analyze_sentiment ex env [("ticker", JVal.str tic)] st =
        (Except.ok (JVal.obj
          [("ticker", JVal.str tic),
           ("overall_sentiment", (jfind ag "label").getD JVal.null),
           ("score", (jfind ag "score").getD JVal.null),
           ("confidence", (jfind ag "confidence").getD JVal.null),
           ("post_count", (jfind ag "post_count").getD JVal.null),
           ("sources", (jfind ag "sources").getD (JVal.obj [])),
           ("top_posts", JVal.arr tops),
           ("source", JVal.str "cached")]), st) := by
      have hak : arg_keys_ok [("ticker", JVal.str tic)] ["ticker"] = true := rfl
      simp [tool_analyze_sentiment, getRequired, jfind, pyUpper, hup, hfe,
        dget, hag, hps, sentiment_shape, pySlice, pyIter, htops, hak]
    rw [execute_of_handler ex env st "analyze_sentiment" tool_analyze_sentiment
      [("ticker", JVal.str tic)] rfl, hrun]
    exact ⟨rfl, rfl⟩

/-- Executor for the C1 counterexample: matching ticker, non-empty
financials snapshot. -/
def c1_ce_executor : ToolExecutor :=
  { frontend_context := JVal.obj
      [("financials", JVal.obj [("results", JVal.arr [JVal.obj []])])],
    context_ticker := some "AAPL" }

/-- C1 counterexample: with a matching ticker and a present, non-empty
financials key the dispatcher answers from the snapshot, yet the result
carries no source field at all (and is not an error), contradicting the
claim that the result is tagged source: cached. -/
theorem c1_frontend_cache_counterexample :
    jfield (execute c1_ce_executor collab_stub exec_st0 "get_financials"
      [("ticker", JVal.str "AAPL")]).1 "source" = none ∧
    jfield (execute c1_ce_executor collab_stub exec_st0 "get_financials"
      [("ticker", JVal.str "AAPL")]).1 "error" = none ∧
    (execute c1_ce_executor collab_stub exec_st0 "get_financials"
      [("ticker", JVal.str "AAPL")]).2 = exec_st0 :=
  ⟨rfl, rfl, rfl⟩

/-- Frontend snapshot for the C1 witness, covering all seven cacheable
tools. -/
def c1_w_fs : List (String × JVal) :=
  [("overview", JVal.obj
      [("previousClose", JVal.obj
          [("results", JVal.arr [JVal.obj [("c", JVal.num 100)]])]),
       ("details", JVal.obj
          [("results", JVal.obj
             [("name", JVal.str "Apple"),
              ("description", JVal.str "Maker of devices")])])]),
   ("financials", JVal.obj [("results", JVal.arr [JVal.obj []])]),
   ("news", JVal.obj [("results", JVal.arr [JVal.obj []])]),
   ("dividends", JVal.obj [("results", JVal.arr [JVal.obj []])]),
   ("splits", JVal.obj [("results", JVal.arr [JVal.obj []])]),
   ("sentiment", JVal.obj
      [("aggregate", JVal.obj [("label", JVal.str "bullish")]),
       ("posts", JVal.arr [])])]

def c1_w_ex : ToolExecutor := ⟨JVal.obj c1_w_fs, some "AAPL"⟩

theorem c1_frontend_cache_witness :
    pyUpperStr "AAPL" = "AAPL" ∧
    ((execute c1_w_ex collab_stub exec_st0 "get_financials"
        [("ticker", JVal.str "AAPL")]).2 = exec_st0 ∧
      jfield (execute c1_w_ex collab_stub exec_st0 "get_financials"
        [("ticker", JVal.str "AAPL")]).1 "source" = none) ∧
    ((execute c1_w_ex collab_stub exec_st0 "get_news"
        [("ticker", JVal.str "AAPL")]).2 = exec_st0 ∧
      jfield (execute c1_w_ex collab_stub exec_st0 "get_news"
        [("ticker", JVal.str "AAPL")]).1 "source" = none) ∧
    ((execute c1_w_ex collab_stub exec_st0 "get_dividends"
        [("ticker", JVal.str "AAPL")]).2 = exec_st0 ∧
      jfield (execute c1_w_ex collab_stub exec_st0 "get_dividends"
        [("ticker", JVal.str "AAPL")]).1 "source" = none) ∧
    ((execute c1_w_ex collab_stub exec_st0 "get_stock_splits"
        [("ticker", JVal.str "AAPL")]).2 = exec_st0 ∧
      jfield (execute c1_w_ex collab_stub exec_st0 "get_stock_splits"
        [("ticker", JVal.str "AAPL")]).1 "source" = none) ∧
    ((execute c1_w_ex collab_stub exec_st0 "get_stock_quote"
        [("ticker", JVal.str "AAPL")]).2 = exec_st0 ∧
      jfield (execute c1_w_ex collab_stub exec_st0 "get_stock_quote"
        [("ticker", JVal.str "AAPL")]).1 "source" = some (JVal.str "cached")) ∧
    ((execute c1_w_ex collab_stub exec_st0 "get_company_info"
        [("ticker", JVal.str "AAPL")]).2 = exec_st0 ∧
      jfield (execute c1_w_ex collab_stub exec_st0 "get_company_info"
        [("ticker", JVal.str "AAPL")]).1 "source" = some (JVal.str "cached")) ∧
    ((execute c1_w_ex collab_stub exec_st0 "analyze_sentiment"
        [("ticker", JVal.str "AAPL")]).2 = exec_st0 ∧
      jfield (execute c1_w_ex collab_stub exec_st0 "analyze_sentiment"
        [("ticker", JVal.str "AAPL")]).1 "source" = some (JVal.str "cached")) := by
  have h := c1_frontend_cache c1_w_ex collab_stub exec_st0 "AAPL" c1_w_fs
    rfl rfl rfl
  refine ⟨rfl, h.1 _ rfl rfl, h.2.1 _ rfl rfl, h.2.2.1 _ rfl rfl,
    h.2.2.2.1 _ rfl rfl, ?_, ?_, ?_⟩
  · exact h.2.2.2.2.1 _ _ [("c", JVal.num 100)] [] rfl rfl rfl rfl
  · exact h.2.2.2.2.2.1 _ _
      [("name", JVal.str "Apple"), ("description", JVal.str "Maker of devices")]
      "Maker of devices" rfl rfl rfl rfl rfl
  · exact h.2.2.2.2.2.2 _ [("label", JVal.str "bullish")] [] rfl rfl rfl rfl
      (by intro p hp; exact absurd hp (List.not_mem_nil p))

/-- A get_news result is within bounds when it is an error value or its
articles field holds at most ten entries. -/
def news_P (v : JVal) : Bool :=
  match jfield v "error" with
  | some _ => true
  | none =>
    match jfield v "articles" with
    | some (JVal.arr xs) => decide (xs.length ≤ 10)
    | some _ => false
    | none => true

theorem toolcache_get_some (c : ToolCache) (now : Int) (key : String)
    (v : JVal) (h : c.get now key = some v) :
    ∃ ts, alistFind c.cache key = some (v, ts) := by
  unfold ToolCache.get at h
  cases hf : alistFind c.cache key with
  | none => rw [hf] at h; cases h
  | some p =>
    cases p with
    | mk data ts =>
      rw [hf] at h
      have h2 : (if now - ts < c.ttl then (some data : Option JVal) else none) =
          some v := h
      by_cases hc : now - ts < c.ttl
      · rw [if_pos hc] at h2; cases h2; exact ⟨ts, rfl⟩
      · rw [if_neg hc] at h2; cases h2

theorem format_news_bounded (tic : String) (d v : JVal)
    (h : format_news tic d = Except.ok v) : news_P v = true := by
  unfold format_news at h
  cases hd : dget d "results" (list_or_empty d) with
  | error e => rw [hd] at h; simp at h
  | ok articles =>
    rw [hd] at h
    simp only [except_bind_ok] at h
    by_cases ht : truthy articles = false
    · rw [if_pos ht] at h
      simp only [except_pure] at h
      cases h
      rfl
    · rw [if_neg ht] at h
      cases articles with
      | null => simp [truthy] at ht
      | bool b => simp [pySlice] at h
      | num n => simp [pySlice] at h
      | obj fsx => simp [pySlice] at h
      | arr xs =>
        simp only [pySlice, except_bind_ok, pyIter] at h
        cases hm : mapExcept news_item (xs.take 10) with
        | error e => rw [hm] at h; simp at h
        | ok formatted =>
          rw [hm] at h
          simp only [except_bind_ok, except_pure] at h
          cases h
          have hlen := mapExcept_ok_length news_item (xs.take 10) formatted hm
          show decide (formatted.length ≤ 10) = true
          simp only [decide_eq_true_eq]
          rw [hlen, List.length_take]
          omega
      | str s =>
        simp only [pySlice, except_bind_ok, pyIter] at h
        have hs : s.data ≠ [] := by
          intro hnil
          apply ht
          have hempty : s = "" := by
            cases s with
            | mk l => simp only at hnil; simp [hnil]
          simp [hempty, truthy]
        cases hchars : s.data.take 10 with
        | nil =>
          exfalso
          apply hs
          cases hsd : s.data with
          | nil => rfl
          | cons c rest => rw [hsd] at hchars; simp at hchars
        | cons c rest =>
          rw [hchars] at h
          simp only [List.map_cons, mapExcept, news_item, dget,
            except_bind_error] at h
          simp at h

/-- C10: for any args, frontend snapshot and collaborator behavior, a
get_news dispatch whose server cache holds only bounded get_news entries
returns either an error value or an article list of at most 10 entries,
and leaves every get_news cache entry bounded (the formatter slices
articles[:10] before shaping, regardless of the accepted limit argument
and of how much data the snapshot or the collaborator supplies). -/
theorem c10_get_news_bounded (ex : ToolExecutor) (env : Collab) (st : ExecSt)
    (args : List (String × JVal))
    (hinv : ∀ (t : String) (v : JVal) (ts : Int),
      alistFind st.server_cache.cache ("get_news:" ++ t) = some (v, ts) →
      news_P v = true) :
    news_P (execute ex env st "get_news" args).1 = true ∧
    (∀ (t : String) (v : JVal) (ts : Int),
      alistFind (execute ex env st "get_news" args).2.server_cache.cache
        ("get_news:" ++ t) = some (v, ts) → news_P v = true) := by
  have hx := execute_of_handler ex env st "get_news" tool_get_news args rfl
  cases harg : arg_keys_ok args ["ticker", "limit"] with
  | false =>
    have hrun : tool_get_news ex env args st =
        (Except.error "TypeError: unexpected keyword argument", st) := by
      simp [tool_get_news, harg]
    rw [hx, hrun]
    exact ⟨rfl, hinv⟩
  | true =>
    cases hpre : tool_get_news_prelude ex args with
    | error e =>
      have hrun : tool_get_news ex env args st = (Except.error e, st) := by
        simp [tool_get_news, harg, hpre]
      rw [hx, hrun]
      exact ⟨rfl, hinv⟩
    | ok triple =>
      obtain ⟨ticker, limit, feOpt⟩ := triple
      cases feOpt with
      | some fe_data =>
        have hrun : tool_get_news ex env args st =
            (format_news ticker fe_data, st) := by
          simp [tool_get_news, harg, hpre]
        rw [hx, hrun]
        cases hf : format_news ticker fe_data with
        | ok v => exact ⟨format_news_bounded ticker fe_data v hf, hinv⟩
        | error e => exact ⟨rfl, hinv⟩
      | none =>
        cases hc : st.server_cache.get st.now ("get_news:" ++ ticker) with
        | some cv =>
          cases htv : truthy cv with
          | true =>
            have hrun : tool_get_news ex env args st =
                (Except.ok cv, { st with cache_gets := st.cache_gets + 1 }) := by
              simp [tool_get_news, harg, hpre, get_news_l23,
                check_server_cache, cache_get_raw, hc, htv]
            rw [hx, hrun]
            obtain ⟨ts, hts⟩ := toolcache_get_some _ _ _ _ hc
            exact ⟨hinv ticker cv ts hts, hinv⟩
          | false =>
            cases hl : env.get_ticker_news ticker limit with
            | error e =>
              have hrun : tool_get_news ex env args st =
                  (Except.error e,
                   live_mark { st with cache_gets := st.cache_gets + 1 }) := by
                simp [tool_get_news, harg, hpre, get_news_l23,
                  check_server_cache, cache_get_raw, hc, htv, get_news_live, hl]
              rw [hx, hrun]
              exact ⟨rfl, hinv⟩
            | ok data =>
              cases hf : format_news ticker data with
              | error e =>
                have hrun : tool_get_news ex env args st =
                    (Except.error e,
                     live_mark { st with cache_gets := st.cache_gets + 1 }) := by
                  simp [tool_get_news, harg, hpre, get_news_l23,
                    check_server_cache, cache_get_raw, hc, htv, get_news_live,
                    hl, hf]
                rw [hx, hrun]
                exact ⟨rfl, hinv⟩
              | ok v =>
                have hrun : tool_get_news ex env args st =
                    (Except.ok v,
                     cache_result
                       (live_mark { st with cache_gets := st.cache_gets + 1 })
                       "get_news" ticker v) := by
                  simp [tool_get_news, harg, hpre, get_news_l23,
                    check_server_cache, cache_get_raw, hc, htv, get_news_live,
                    hl, hf, cache_result, cache_set_raw, ToolCache.set,
                    live_mark]
                rw [hx, hrun]
                refine ⟨format_news_bounded ticker data v hf, ?_⟩
                intro t v2 ts h
                simp only [cache_result, cache_set_raw, ToolCache.set,
                  live_mark] at h
                rw [show ("get_news" ++ ":" ++ ticker : String) =
                  ("get_news:" ++ ticker) from rfl] at h
                by_cases hk : ("get_news:" ++ t) = ("get_news:" ++ ticker)
                · rw [hk, alistFind_upsert] at h
                  cases h
                  exact format_news_bounded ticker data v hf
                · rw [alistFind_upsert_ne _ _ _ _ hk] at h
                  exact hinv t v2 ts h
        | none =>
          cases hl : env.get_ticker_news ticker limit with
          | error e =>
            have hrun : tool_get_news ex env args st =
                (Except.error e,
                 live_mark { st with cache_gets := st.cache_gets + 1 }) := by
              simp [tool_get_news, harg, hpre, get_news_l23,
                check_server_cache, cache_get_raw, hc, get_news_live, hl]
            rw [hx, hrun]
            exact ⟨rfl, hinv⟩
          | ok data =>
            cases hf : format_news ticker data with
            | error e =>
              have hrun : tool_get_news ex env args st =
                  (Except.error e,
                   live_mark { st with cache_gets := st.cache_gets + 1 }) := by
                simp [tool_get_news, harg, hpre, get_news_l23,
                  check_server_cache, cache_get_raw, hc, get_news_live, hl, hf]
              rw [hx, hrun]
              exact ⟨rfl, hinv⟩
            | ok v =>
              have hrun : tool_get_news ex env args st =
                  (Except.ok v,
                   cache_result
                     (live_mark { st with cache_gets := st.cache_gets + 1 })
                     "get_news" ticker v) := by
                simp [tool_get_news, harg, hpre, get_news_l23,
                  check_server_cache, cache_get_raw, hc, get_news_live, hl, hf,
                  cache_result, cache_set_raw, ToolCache.set, live_mark]
              rw [hx, hrun]
              refine ⟨format_news_bounded ticker data v hf, ?_⟩
              intro t v2 ts h
              simp only [cache_result, cache_set_raw, ToolCache.set,
                live_mark] at h
              rw [show ("get_news" ++ ":" ++ ticker : String) =
                ("get_news:" ++ ticker) from rfl] at h
              by_cases hk : ("get_news:" ++ t) = ("get_news:" ++ ticker)
              · rw [hk, alistFind_upsert] at h
                cases h
                exact format_news_bounded ticker data v hf
              · rw [alistFind_upsert_ne _ _ _ _ hk] at h
                exact hinv t v2 ts h

theorem c10_get_news_bounded_witness :
    news_P (execute (ToolExecutor.mk (JVal.obj []) none) collab_stub exec_st0
      "get_news" [("ticker", JVal.str "AAPL"), ("limit", JVal.num 20)]).1 = true ∧
    (∀ (t : String) (v : JVal) (ts : Int),
      alistFind (execute (ToolExecutor.mk (JVal.obj []) none) collab_stub
          exec_st0 "get_news"
          [("ticker", JVal.str "AAPL"), ("limit", JVal.num 20)]).2.server_cache.cache
        ("get_news:" ++ t) = some (v, ts) → news_P v = true) :=
  c10_get_news_bounded (ToolExecutor.mk (JVal.obj []) none) collab_stub
    exec_st0 [("ticker", JVal.str "AAPL"), ("limit", JVal.num 20)]
    (fun _ _ _ h => nomatch h)

/-- One part of a Gemini content turn (google.genai types.Part): plain
text, a function call request, or a function response. -/
inductive GPart : Type
  | text (s : String)
  | functionCall (name : String) (args : List (String × JVal))
  | functionResponse (name : String) (response : JVal)
deriving Inhabited

/-- A Gemini content turn: role plus ordered parts. -/
structure Content where
  role : String
  parts : List GPart
deriving Inhabited

/-- Typed SSE event yielded by AgentService.process_message. The three
tool_call dict shapes (status calling with args, status complete, status
error with the error payload) are separate constructors. -/
inductive Event : Type
  | toolCalling (tool : String) (args : List (String × JVal))
  | toolComplete (tool : String)
  | toolError (tool : String) (err : JVal)
  | text (chunk : String)
  | done
  | error (message : String)
deriving Inhabited

def is_error_event : Event → Bool
  | Event.error _ => true
  | _ => false

def is_done_event : Event → Bool
  | Event.done => true
  | _ => false

def is_tool_event : Event → Bool
  | Event.toolCalling _ _ => true
  | Event.toolComplete _ => true
  | Event.toolError _ _ => true
  | _ => false

/-- AgentLLMClient.extract_parts, function-call half: the parts of the
candidate content that carry a function call, in order. -/
def extract_calls (c : Content) : List (String × List (String × JVal)) :=
  c.parts.filterMap (fun p =>
    match p with
    | GPart.functionCall n a => some (n, a)
    | _ => none)

/-- AgentLLMClient.extract_parts, text half: the non-empty text parts
(Python `if p.text` drops empty strings). -/
def extract_texts (c : Content) : List String :=
  c.parts.filterMap (fun p =>
    match p with
    | GPart.text s => if s = "" then none else some s
    | _ => none)

/-- AgentLLMClient.history_to_contents. -/
def history_to_contents (history : List Message) : List Content :=
  history.map (fun m =>
    Content.mk (if m.role = "user" then "user" else "model") [GPart.text m.content])

/-- The fixed apology substituted when the model returns no text; the
apostrophe is written as an escape. -/
def apology_text : String :=
  "I wasn\x27t able to generate a response. Please try again."

/-- The fixed fallback text emitted when the iteration budget is hit. -/
def max_iter_fallback : String :=
  "I gathered some information but reached the maximum number of analysis steps. Please try a more specific question."

/-- Successive 20-character slices of a character list (chunk_size = 20 in
process_message); the fuel is the list length, enough for every step. -/
def chunkAux : Nat → List Char → List (List Char)
  | 0, _ => []
  | _, [] => []
  | fuel + 1, l => l.take 20 :: chunkAux fuel (l.drop 20)

/-- The text chunks streamed for a final text, in order. -/
def text_chunks (s : String) : List String :=
  (chunkAux s.data.length s.data).map String.mk

/-- Per-iteration tool-call processing of process_message: for each
requested call in order, a calling event, the dispatch through the
executor, the status event chosen by the error field of the result
(Python `"error" in result` on the dict execute returns), and the
collected function-response part. -/
def process_tool_calls
    (texec : ExecSt → String → List (String × JVal) → JVal × ExecSt) :
    ExecSt → List (String × List (String × JVal)) →
      List Event × List GPart × ExecSt
  | st, [] => ([], [], st)
  | st, (name, targs) :: rest =>
    let r0 := texec st name targs
    let status :=
      match jfield r0.1 "error" with
      | some e => Event.toolError name e
      | none => Event.toolComplete name
    let r := process_tool_calls texec r0.2 rest
    (Event.toolCalling name targs :: status :: r.1,
     GPart.functionResponse name (JVal.obj [("result", r0.1)]) :: r.2.1,
     r.2.2)

/-- The observable outcome of one turn: the yielded events, the final
conversation store, the final transcript, the final executor state, the
number of model calls made, and whether the top-level except branch ran. -/
structure TurnOut where
  events : List Event
  cm : ConversationManager
  contents : List Content
  st : ExecSt
  model_calls : Nat
  faulted : Bool

/-- The ReAct loop of AgentService.process_message. The model service is
the gen oracle (a transcript to either a response content or a raised
exception); tool dispatch is the texec function (ToolExecutor.execute is
one instance); fuel is the remaining iteration budget. Events already
yielded before a fault stay in the stream, matching generator semantics;
the single except branch turns the fault into one error event and sets
faulted. -/
def agent_loop (texec : ExecSt → String → List (String × JVal) → JVal × ExecSt)
    (gen : List Content → Except String Content)
    (conversation_id message : String) (now : Nat) :
    Nat → List Content → ExecSt → ConversationManager → Nat → TurnOut
  | 0, contents, st, cm, n =>
    ⟨[Event.text max_iter_fallback, Event.done], cm, contents, st, n, false⟩
  | fuel + 1, contents, st, cm, n =>
    match gen contents with
    | Except.error e =>
      ⟨[Event.error ("An error occurred: " ++ e)], cm, contents, st, n + 1, true⟩
    | Except.ok resp =>
      let function_calls := extract_calls resp
      let text_parts := extract_texts resp
      if function_calls.isEmpty then
        let ft0 := String.join text_parts
        let final_text := if ft0 = "" then apology_text else ft0
        let evs := (text_chunks final_text).map Event.text ++ [Event.done]
        let cm1 := cm.add_message conversation_id "user" message now
        let cm2 := cm1.add_message conversation_id "assistant" final_text now
        ⟨evs, cm2, contents, st, n + 1, false⟩
      else
        let contents1 := contents ++ [resp]
        let r := process_tool_calls texec st function_calls
        let contents2 := contents1 ++ [Content.mk "tool" r.2.1]
        let out := agent_loop texec gen conversation_id message now fuel
          contents2 r.2.2 cm (n + 1)
        ⟨r.1 ++ out.events, out.cm, out.contents, out.st, out.model_calls,
         out.faulted⟩

/-- AgentService.process_message: build the transcript from history plus
the new user message, then run the loop under the configured iteration
budget (the AGENT_MAX_ITERATIONS constant imported from config, modelled
as the max_iterations parameter). The per-request set_context priming of
the executor is carried by the texec instance. -/
def process_message
    (texec : ExecSt → String → List (String × JVal) → JVal × ExecSt)
    (gen : List Content → Except String Content)
    (message conversation_id : String) (now : Nat) (max_iterations : Nat)
    (cm : ConversationManager) (st : ExecSt) : TurnOut :=
  let history := cm.get_history conversation_id 5
  let contents := history_to_contents history ++
    [Content.mk "user" [GPart.text message]]
  agent_loop texec gen conversation_id message now max_iterations contents st cm 0

theorem is_tool_event_not_error_done (e : Event) (h : is_tool_event e = true) :
    is_error_event e = false ∧ is_done_event e = false := by
  cases e <;> simp [is_tool_event, is_error_event, is_done_event] at h ⊢

theorem process_tool_calls_events_shape
    (texec : ExecSt → String → List (String × JVal) → JVal × ExecSt) :
    ∀ (cs : List (String × List (String × JVal))) (st : ExecSt),
      ∀ e ∈ (process_tool_calls texec st cs).1, is_tool_event e = true := by
  intro cs
  induction cs with
  | nil => intro st e he; simp [process_tool_calls] at he
  | cons c rest ih =>
    intro st e he
    obtain ⟨name, targs⟩ := c
    unfold process_tool_calls at he
    simp only [List.mem_cons] at he
    rcases he with he | he | he
    · subst he; rfl
    · subst he
      cases jfield (texec st name targs).1 "error" <;> rfl
    · exact ih (texec st name targs).2 e he

theorem agent_loop_error_step
    (texec : ExecSt → String → List (String × JVal) → JVal × ExecSt)
    (gen : List Content → Except String Content)
    (cid message : String) (now fuel : Nat) (contents : List Content)
    (st : ExecSt) (cm : ConversationManager) (n : Nat) (e : String)
    (hg : gen contents = Except.error e) :
    agent_loop texec gen cid message now (fuel + 1) contents st cm n =
      ⟨[Event.error ("An error occurred: " ++ e)], cm, contents, st, n + 1,
        true⟩ := by
  conv_lhs => rw [agent_loop]
  rw [hg]

theorem agent_loop_terminal_step
    (texec : ExecSt → String → List (String × JVal) → JVal × ExecSt)
    (gen : List Content → Except String Content)
    (cid message : String) (now fuel : Nat) (contents : List Content)
    (st : ExecSt) (cm : ConversationManager) (n : Nat) (resp : Content)
    (hg : gen contents = Except.ok resp)
    (hfc : (extract_calls resp).isEmpty = true) :
    agent_loop texec gen cid message now (fuel + 1) contents st cm n =
      ⟨(text_chunks (if String.join (extract_texts resp) = "" then apology_text
          else String.join (extract_texts resp))).map Event.text ++ [Event.done],
        (cm.add_message cid "user" message now).add_message cid "assistant"
          (if String.join (extract_texts resp) = "" then apology_text
           else String.join (extract_texts resp)) now,
        contents, st, n + 1, false⟩ := by
  conv_lhs => rw [agent_loop]
  rw [hg]
  simp only [hfc, if_true]

theorem agent_loop_calls_step
    (texec : ExecSt → String → List (String × JVal) → JVal × ExecSt)
    (gen : List Content → Except String Content)
    (cid message : String) (now fuel : Nat) (contents : List Content)
    (st : ExecSt) (cm : ConversationManager) (n : Nat) (resp : Content)
    (hg : gen contents = Except.ok resp)
    (hfc : (extract_calls resp).isEmpty = false) :
    agent_loop texec gen cid message now (fuel + 1) contents st cm n =
      ⟨(process_tool_calls texec st (extract_calls resp)).1 ++
          (agent_loop texec gen cid message now fuel
            ((contents ++ [resp]) ++
              [Content.mk "tool"
                (process_tool_calls texec st (extract_calls resp)).2.1])
            (process_tool_calls texec st (extract_calls resp)).2.2 cm
            (n + 1)).events,
        (agent_loop texec gen cid message now fuel
          ((contents ++ [resp]) ++
            [Content.mk "tool"
              (process_tool_calls texec st (extract_calls resp)).2.1])
          (process_tool_calls texec st (extract_calls resp)).2.2 cm
          (n + 1)).cm,
        (agent_loop texec gen cid message now fuel
          ((contents ++ [resp]) ++
            [Content.mk "tool"
              (process_tool_calls texec st (extract_calls resp)).2.1])
          (process_tool_calls texec st (extract_calls resp)).2.2 cm
          (n + 1)).contents,
        (agent_loop texec gen cid message now fuel
          ((contents ++ [resp]) ++
            [Content.mk "tool"
              (process_tool_calls texec st (extract_calls resp)).2.1])
          (process_tool_calls texec st (extract_calls resp)).2.2 cm
          (n + 1)).st,
        (agent_loop texec gen cid message now fuel
          ((contents ++ [resp]) ++
            [Content.mk "tool"
              (process_tool_calls texec st (extract_calls resp)).2.1])
          (process_tool_calls texec st (extract_calls resp)).2.2 cm
          (n + 1)).model_calls,
        (agent_loop texec gen cid message now fuel
          ((contents ++ [resp]) ++
            [Content.mk "tool"
              (process_tool_calls texec st (extract_calls resp)).2.1])
          (process_tool_calls texec st (extract_calls resp)).2.2 cm
          (n + 1)).faulted⟩ := by
  conv_lhs => rw [agent_loop]
  rw [hg]
  simp only [hfc, Bool.false_eq_true, if_false]

theorem agent_loop_contents_extend
    (texec : ExecSt → String → List (String × JVal) → JVal × ExecSt)
    (gen : List Content → Except String Content)
    (cid message : String) (now : Nat) :
    ∀ (fuel : Nat) (contents : List Content) (st : ExecSt)
      (cm : ConversationManager) (n : Nat), ∃ ext,
      (agent_loop texec gen cid message now fuel contents st cm n).contents =
        contents ++ ext := by
  intro fuel
  induction fuel with
  | zero => intro contents st cm n; exact ⟨[], by simp [agent_loop]⟩
  | succ fuel ih =>
    intro contents st cm n
    cases hg : gen contents with
    | error e =>
      rw [agent_loop_error_step texec gen cid message now fuel contents st cm
        n e hg]
      exact ⟨[], by simp⟩
    | ok resp =>
      cases hfc : (extract_calls resp).isEmpty with
      | true =>
        rw [agent_loop_terminal_step texec gen cid message now fuel contents
          st cm n resp hg hfc]
        exact ⟨[], by simp⟩
      | false =>
        rw [agent_loop_calls_step texec gen cid message now fuel contents st
          cm n resp hg hfc]
        obtain ⟨ext, hext⟩ := ih
          ((contents ++ [resp]) ++
            [Content.mk "tool"
              (process_tool_calls texec st (extract_calls resp)).2.1])
          (process_tool_calls texec st (extract_calls resp)).2.2 cm (n + 1)
        refine ⟨[resp] ++
          [Content.mk "tool"
            (process_tool_calls texec st (extract_calls resp)).2.1] ++ ext, ?_⟩
        show (agent_loop texec gen cid message now fuel _ _ cm (n + 1)).contents = _
        rw [hext]
        simp

theorem agent_loop_fault
    (texec : ExecSt → String → List (String × JVal) → JVal × ExecSt)
    (gen : List Content → Except String Content)
    (cid message : String) (now : Nat) :
    ∀ (fuel : Nat) (contents : List Content) (st : ExecSt)
      (cm : ConversationManager) (n : Nat),
      (agent_loop texec gen cid message now fuel contents st cm n).faulted = true →
      (∃ pre m,
        (agent_loop texec gen cid message now fuel contents st cm n).events =
          pre ++ [Event.error m]) ∧
      ((agent_loop texec gen cid message now fuel contents st cm n).events.filter
        is_error_event).length = 1 ∧
      (agent_loop texec gen cid message now fuel contents st cm n).events.filter
        is_done_event = [] ∧
      (agent_loop texec gen cid message now fuel contents st cm n).cm = cm := by
  intro fuel
  induction fuel with
  | zero =>
    intro contents st cm n h
    simp [agent_loop] at h
  | succ fuel ih =>
    intro contents st cm n h
    cases hg : gen contents with
    | error e =>
      rw [agent_loop_error_step texec gen cid message now fuel contents st cm
        n e hg] at h ⊢
      refine ⟨⟨[], "An error occurred: " ++ e, rfl⟩, ?_, ?_, rfl⟩
      · simp [is_error_event]
      · simp [is_done_event]
    | ok resp =>
      cases hfc : (extract_calls resp).isEmpty with
      | true =>
        rw [agent_loop_terminal_step texec gen cid message now fuel contents
          st cm n resp hg hfc] at h
        simp at h
      | false =>
        rw [agent_loop_calls_step texec gen cid message now fuel contents st
          cm n resp hg hfc] at h ⊢
        have hout := ih
          ((contents ++ [resp]) ++
            [Content.mk "tool"
              (process_tool_calls texec st (extract_calls resp)).2.1])
          (process_tool_calls texec st (extract_calls resp)).2.2 cm (n + 1) h
        obtain ⟨⟨pre, m, hev⟩, herr, hdone, hcm⟩ := hout
        have htool : ∀ e ∈ (process_tool_calls texec st (extract_calls resp)).1,
            is_tool_event e = true :=
          process_tool_calls_events_shape texec (extract_calls resp) st
        have hfe : (process_tool_calls texec st (extract_calls resp)).1.filter
            is_error_event = [] := by
          rw [List.filter_eq_nil]
          intro a ha
          simp [(is_tool_event_not_error_done a (htool a ha)).1]
        have hfd : (process_tool_calls texec st (extract_calls resp)).1.filter
            is_done_event = [] := by
          rw [List.filter_eq_nil]
          intro a ha
          simp [(is_tool_event_not_error_done a (htool a ha)).2]
        refine ⟨⟨(process_tool_calls texec st (extract_calls resp)).1 ++ pre, m,
          ?_⟩, ?_, ?_, hcm⟩
        · rw [hev]
          simp
        · rw [List.filter_append, hfe]
          simpa using herr
        · rw [List.filter_append, hfd, hdone]
          rfl

/-- C2: whenever an uncaught exception is raised anywhere during one run
of process_message (the top-level except branch ran, recorded in
faulted), the emitted event stream contains exactly one error event, that
error event terminates the stream, no done event is ever emitted (so
exactly one of done or error terminates the sequence), and the
conversation store is left exactly as it was: no partial write, neither
the user nor the assistant message is persisted. -/
theorem c2_turn_fault
    (texec : ExecSt → String → List (String × JVal) → JVal × ExecSt)
    (gen : List Content → Except String Content)
    (message conversation_id : String) (now maxIters : Nat)
    (cm : ConversationManager) (st : ExecSt)
    (hfault : (process_message texec gen message conversation_id now maxIters
      cm st).faulted = true) :
    (∃ pre m, (process_message texec gen message conversation_id now maxIters
        cm st).events = pre ++ [Event.error m]) ∧
    ((process_message texec gen message conversation_id now maxIters
        cm st).events.filter is_error_event).length = 1 ∧
    (process_message texec gen message conversation_id now maxIters
        cm st).events.filter is_done_event = [] ∧
    (process_message texec gen message conversation_id now maxIters
        cm st).cm = cm := by
  exact agent_loop_fault texec gen conversation_id message now maxIters
    (history_to_contents (cm.get_history conversation_id 5) ++
      [Content.mk "user" [GPart.text message]]) st cm 0 hfault

/-- Stand-in tool dispatch for witnesses: any pure function serves, since
the theorems quantify over the dispatcher. -/
def texec_stub : ExecSt → String → List (String × JVal) → JVal × ExecSt :=
  fun st _ _ => (JVal.obj [("ok", JVal.bool true)], st)

/-- Model oracle that always raises, as an unreachable model service. -/
def gen_fault : List Content → Except String Content :=
  fun _ => Except.error "model service unreachable"

theorem c2_turn_fault_witness :
    (process_message texec_stub gen_fault "hello" "c" 0 3
      (ConversationManager.mk [] 24) exec_st0).faulted = true ∧
    ((∃ pre m, (process_message texec_stub gen_fault "hello" "c" 0 3
        (ConversationManager.mk [] 24) exec_st0).events = pre ++ [Event.error m]) ∧
     ((process_message texec_stub gen_fault "hello" "c" 0 3
        (ConversationManager.mk [] 24) exec_st0).events.filter
          is_error_event).length = 1 ∧
     (process_message texec_stub gen_fault "hello" "c" 0 3
        (ConversationManager.mk [] 24) exec_st0).events.filter
          is_done_event = [] ∧
     (process_message texec_stub gen_fault "hello" "c" 0 3
        (ConversationManager.mk [] 24) exec_st0).cm =
       ConversationManager.mk [] 24) :=
  ⟨rfl, c2_turn_fault texec_stub gen_fault "hello" "c" 0 3
    (ConversationManager.mk [] 24) exec_st0 rfl⟩

theorem process_tool_calls_spec
    (texec : ExecSt → String → List (String × JVal) → JVal × ExecSt) :
    ∀ (cs : List (String × List (String × JVal))) (st : ExecSt),
      ∃ rs : List JVal,
        rs.length = cs.length ∧
        (process_tool_calls texec st cs).1 =
          ((cs.zip rs).map (fun cr =>
            [Event.toolCalling cr.1.1 cr.1.2,
             match jfield cr.2 "error" with
             | some e => Event.toolError cr.1.1 e
             | none => Event.toolComplete cr.1.1])).join ∧
        (process_tool_calls texec st cs).2.1 =
          (cs.zip rs).map (fun cr =>
            GPart.functionResponse cr.1.1 (JVal.obj [("result", cr.2)])) := by
  intro cs
  induction cs with
  | nil => intro st; exact ⟨[], rfl, rfl, rfl⟩
  | cons c rest ih =>
    intro st
    obtain ⟨name, targs⟩ := c
    obtain ⟨rs, hlen, hev, hparts⟩ := ih (texec st name targs).2
    refine ⟨(texec st name targs).1 :: rs, by simp [hlen], ?_, ?_⟩
    · show Event.toolCalling name targs :: _ :: (process_tool_calls texec
        (texec st name targs).2 rest).1 = _
      rw [hev]
      simp [List.zip_cons_cons]
    · show GPart.functionResponse name
        (JVal.obj [("result", (texec st name targs).1)]) ::
        (process_tool_calls texec (texec st name targs).2 rest).2.1 = _
      rw [hparts]
      simp [List.zip_cons_cons]

/-- C3: in an iteration whose model response requests k tool calls, the
engine emits for each call, in the order received, a calling event
followed by an error-status event exactly when the dispatch result
carries an error field and a complete-status event otherwise; it collects
exactly k function-response parts in the same order (rs is the list of
dispatch results, threaded through the executor state in call order); the
iteration events are a prefix of the turn events; and exactly one
synthetic tool-role transcript turn holding those k parts is appended
right after the model turn, regardless of the success or failure of each
call. -/
theorem c3_tool_call_iteration
    (texec : ExecSt → String → List (String × JVal) → JVal × ExecSt)
    (gen : List Content → Except String Content)
    (cid message : String) (now fuel : Nat) (contents : List Content)
    (st : ExecSt) (cm : ConversationManager) (n : Nat) (resp : Content)
    (hg : gen contents = Except.ok resp)
    (hcalls : (extract_calls resp).isEmpty = false) :
    ∃ rs : List JVal,
      rs.length = (extract_calls resp).length ∧
      (process_tool_calls texec st (extract_calls resp)).1 =
        (((extract_calls resp).zip rs).map (fun cr =>
          [Event.toolCalling cr.1.1 cr.1.2,
           match jfield cr.2 "error" with
           | some e => Event.toolError cr.1.1 e
           | none => Event.toolComplete cr.1.1])).join ∧
      (process_tool_calls texec st (extract_calls resp)).2.1 =
        ((extract_calls resp).zip rs).map (fun cr =>
          GPart.functionResponse cr.1.1 (JVal.obj [("result", cr.2)])) ∧
      (process_tool_calls texec st (extract_calls resp)).2.1.length =
        (extract_calls resp).length ∧
      (∃ tail,
        (agent_loop texec gen cid message now (fuel + 1) contents st cm
          n).events =
          (process_tool_calls texec st (extract_calls resp)).1 ++ tail) ∧
      (∃ rest2,
        (agent_loop texec gen cid message now (fuel + 1) contents st cm
          n).contents =
          contents ++
            [resp, Content.mk "tool"
              (process_tool_calls texec st (extract_calls resp)).2.1] ++
            rest2) := by
  obtain ⟨rs, hlen, hev, hparts⟩ :=
    process_tool_calls_spec texec (extract_calls resp) st
  refine ⟨rs, hlen, hev, hparts, ?_, ?_, ?_⟩
  · rw [hparts]
    rw [List.length_map, List.length_zip, hlen]
    simp
  · rw [agent_loop_calls_step texec gen cid message now fuel contents st cm
      n resp hg hcalls]
    exact ⟨_, rfl⟩
  · rw [agent_loop_calls_step texec gen cid message now fuel contents st cm
      n resp hg hcalls]
    obtain ⟨ext, hext⟩ := agent_loop_contents_extend texec gen cid message now
      fuel
      ((contents ++ [resp]) ++
        [Content.mk "tool" (process_tool_calls texec st (extract_calls resp)).2.1])
      (process_tool_calls texec st (extract_calls resp)).2.2 cm (n + 1)
    refine ⟨ext, ?_⟩
    rw [hext]
    simp

/-- Model oracle for witnesses that always requests two tool calls. -/
def gen_two_calls : List Content → Except String Content :=
  fun _ => Except.ok (Content.mk "model"
    [GPart.functionCall "get_news" [("ticker", JVal.str "AAPL")],
     GPart.functionCall "bogus_tool" []])

theorem c3_tool_call_iteration_witness :
    gen_two_calls [] = Except.ok (Content.mk "model"
      [GPart.functionCall "get_news" [("ticker", JVal.str "AAPL")],
       GPart.functionCall "bogus_tool" []]) ∧
    (extract_calls (Content.mk "model"
      [GPart.functionCall "get_news" [("ticker", JVal.str "AAPL")],
       GPart.functionCall "bogus_tool" []])).isEmpty = false ∧
    (∃ rs : List JVal,
      rs.length = (extract_calls (Content.mk "model"
        [GPart.functionCall "get_news" [("ticker", JVal.str "AAPL")],
         GPart.functionCall "bogus_tool" []])).length ∧
      (process_tool_calls texec_stub exec_st0 (extract_calls (Content.mk "model"
        [GPart.functionCall "get_news" [("ticker", JVal.str "AAPL")],
         GPart.functionCall "bogus_tool" []]))).1 =
        (((extract_calls (Content.mk "model"
          [GPart.functionCall "get_news" [("ticker", JVal.str "AAPL")],
           GPart.functionCall "bogus_tool" []])).zip rs).map (fun cr =>
          [Event.toolCalling cr.1.1 cr.1.2,
           match jfield cr.2 "error" with
           | some e => Event.toolError cr.1.1 e
           | none => Event.toolComplete cr.1.1])).join ∧
      (process_tool_calls texec_stub exec_st0 (extract_calls (Content.mk "model"
        [GPart.functionCall "get_news" [("ticker", JVal.str "AAPL")],
         GPart.functionCall "bogus_tool" []]))).2.1 =
        ((extract_calls (Content.mk "model"
          [GPart.functionCall "get_news" [("ticker", JVal.str "AAPL")],
           GPart.functionCall "bogus_tool" []])).zip rs).map (fun cr =>
          GPart.functionResponse cr.1.1 (JVal.obj [("result", cr.2)])) ∧
      (process_tool_calls texec_stub exec_st0 (extract_calls (Content.mk "model"
        [GPart.functionCall "get_news" [("ticker", JVal.str "AAPL")],
         GPart.functionCall "bogus_tool" []]))).2.1.length =
        (extract_calls (Content.mk "model"
          [GPart.functionCall "get_news" [("ticker", JVal.str "AAPL")],
           GPart.functionCall "bogus_tool" []])).length ∧
      (∃ tail,
        (agent_loop texec_stub gen_two_calls "c" "hi" 0 (0 + 1) [] exec_st0
          (ConversationManager.mk [] 24) 0).events =
          (process_tool_calls texec_stub exec_st0 (extract_calls (Content.mk "model"
            [GPart.functionCall "get_news" [("ticker", JVal.str "AAPL")],
             GPart.functionCall "bogus_tool" []]))).1 ++ tail) ∧
      (∃ rest2,
        (agent_loop texec_stub gen_two_calls "c" "hi" 0 (0 + 1) [] exec_st0
          (ConversationManager.mk [] 24) 0).contents =
          [] ++
            [Content.mk "model"
              [GPart.functionCall "get_news" [("ticker", JVal.str "AAPL")],
               GPart.functionCall "bogus_tool" []],
             Content.mk "tool"
              (process_tool_calls texec_stub exec_st0 (extract_calls (Content.mk "model"
                [GPart.functionCall "get_news" [("ticker", JVal.str "AAPL")],
                 GPart.functionCall "bogus_tool" []]))).2.1] ++
            rest2)) :=
  ⟨rfl, rfl,
   c3_tool_call_iteration texec_stub gen_two_calls "c" "hi" 0 0 [] exec_st0
     (ConversationManager.mk [] 24) 0 _ rfl rfl⟩

theorem agent_loop_budget
    (texec : ExecSt → String → List (String × JVal) → JVal × ExecSt)
    (gen : List Content → Except String Content)
    (cid message : String) (now : Nat)
    (hgen : ∀ cs, ∃ r, gen cs = Except.ok r ∧
      (extract_calls r).isEmpty = false) :
    ∀ (fuel : Nat) (contents : List Content) (st : ExecSt)
      (cm : ConversationManager) (n : Nat),
      (agent_loop texec gen cid message now fuel contents st cm
        n).model_calls = n + fuel ∧
      (∃ pre, (agent_loop texec gen cid message now fuel contents st cm
        n).events = pre ++ [Event.text max_iter_fallback, Event.done]) ∧
      (agent_loop texec gen cid message now fuel contents st cm n).cm = cm := by
  intro fuel
  induction fuel with
  | zero =>
    intro contents st cm n
    exact ⟨by simp [agent_loop], ⟨[], by simp [agent_loop]⟩,
      by simp [agent_loop]⟩
  | succ fuel ih =>
    intro contents st cm n
    obtain ⟨r, hr, hcalls⟩ := hgen contents
    rw [agent_loop_calls_step texec gen cid message now fuel contents st cm
      n r hr hcalls]
    obtain ⟨hmc, ⟨pre, hpre⟩, hcm⟩ := ih
      ((contents ++ [r]) ++
        [Content.mk "tool" (process_tool_calls texec st (extract_calls r)).2.1])
      (process_tool_calls texec st (extract_calls r)).2.2 cm (n + 1)
    refine ⟨?_, ⟨(process_tool_calls texec st (extract_calls r)).1 ++ pre, ?_⟩,
      hcm⟩
    · show (agent_loop texec gen cid message now fuel _ _ cm
        (n + 1)).model_calls = n + (fuel + 1)
      rw [hmc]
      omega
    · show (process_tool_calls texec st (extract_calls r)).1 ++ _ = _
      rw [hpre]
      simp

/-- C4: when every model response requests at least one tool call, the
turn makes exactly max_iterations model round trips (the loop always
terminates, by construction on the iteration budget), then emits the
fixed fallback text followed by done, and nothing at all is persisted to
the conversation store, so in particular the fallback is not persisted. -/
theorem c4_budget_exhaustion
    (texec : ExecSt → String → List (String × JVal) → JVal × ExecSt)
    (gen : List Content → Except String Content)
    (message conversation_id : String) (now max_iterations : Nat)
    (cm : ConversationManager) (st : ExecSt)
    (hgen : ∀ cs, ∃ r, gen cs = Except.ok r ∧
      (extract_calls r).isEmpty = false) :
    (process_message texec gen message conversation_id now max_iterations cm
      st).model_calls = max_iterations ∧
    (∃ pre, (process_message texec gen message conversation_id now
      max_iterations cm st).events =
      pre ++ [Event.text max_iter_fallback, Event.done]) ∧
    (process_message texec gen message conversation_id now max_iterations cm
      st).cm = cm := by
  have h := agent_loop_budget texec gen conversation_id message now hgen
    max_iterations
    (history_to_contents (cm.get_history conversation_id 5) ++
      [Content.mk "user" [GPart.text message]]) st cm 0
  simpa using h

theorem c4_budget_exhaustion_witness :
    (∀ cs, ∃ r, gen_two_calls cs = Except.ok r ∧
      (extract_calls r).isEmpty = false) ∧
    ((process_message texec_stub gen_two_calls "hi" "c" 0 3
        (ConversationManager.mk [] 24) exec_st0).model_calls = 3 ∧
     (∃ pre, (process_message texec_stub gen_two_calls "hi" "c" 0 3
        (ConversationManager.mk [] 24) exec_st0).events =
        pre ++ [Event.text max_iter_fallback, Event.done]) ∧
     (process_message texec_stub gen_two_calls "hi" "c" 0 3
        (ConversationManager.mk [] 24) exec_st0).cm =
       ConversationManager.mk [] 24) :=
  ⟨fun cs => ⟨Content.mk "model"
      [GPart.functionCall "get_news" [("ticker", JVal.str "AAPL")],
       GPart.functionCall "bogus_tool" []], rfl, rfl⟩,
   c4_budget_exhaustion texec_stub gen_two_calls "hi" "c" 0 3
     (ConversationManager.mk [] 24) exec_st0
     (fun cs => ⟨Content.mk "model"
       [GPart.functionCall "get_news" [("ticker", JVal.str "AAPL")],
        GPart.functionCall "bogus_tool" []], rfl, rfl⟩)⟩

theorem chunkAux_of_nil (fuel : Nat) : chunkAux fuel [] = [] := by
  cases fuel <;> rfl

theorem chunkAux_join : ∀ (fuel : Nat) (l : List Char), l.length ≤ fuel →
    (chunkAux fuel l).join = l := by
  intro fuel
  induction fuel with
  | zero =>
    intro l h
    have hl : l = [] := List.eq_nil_of_length_eq_zero (Nat.le_zero.mp h)
    subst hl
    rfl
  | succ fuel ih =>
    intro l h
    cases l with
    | nil => rfl
    | cons c cs =>
      have hstep : ((c :: cs).take 20 :: chunkAux fuel ((c :: cs).drop 20)).join =
          (c :: cs).take 20 ++ (chunkAux fuel ((c :: cs).drop 20)).join := rfl
      show ((c :: cs).take 20 :: chunkAux fuel ((c :: cs).drop 20)).join = _
      rw [hstep, ih ((c :: cs).drop 20)
        (by rw [List.length_drop]; simp only [List.length_cons] at h ⊢; omega)]
      exact List.take_append_drop 20 (c :: cs)

theorem chunkAux_mem : ∀ (fuel : Nat) (l : List Char) (c : List Char),
    c ∈ chunkAux fuel l → c.length ≤ 20 ∧ c ≠ [] := by
  intro fuel
  induction fuel with
  | zero => intro l c hc; simp [chunkAux] at hc
  | succ fuel ih =>
    intro l c hc
    cases l with
    | nil => simp [chunkAux] at hc
    | cons d ds =>
      rcases List.mem_cons.mp hc with hc | hc
      · subst hc
        constructor
        · simp
        · simp
      · exact ih _ c hc

theorem chunkAux_full : ∀ (fuel : Nat) (l : List Char) (i : Nat)
    (c : List Char), (chunkAux fuel l).get? i = some c →
    i + 1 < (chunkAux fuel l).length → c.length = 20 := by
  intro fuel
  induction fuel with
  | zero => intro l i c hget _; simp [chunkAux] at hget
  | succ fuel ih =>
    intro l i c hget hlt
    cases l with
    | nil => simp [chunkAux] at hget
    | cons d ds =>
      cases i with
      | zero =>
        have hc : c = (d :: ds).take 20 := by
          have : (chunkAux (fuel + 1) (d :: ds)).get? 0 =
              some ((d :: ds).take 20) := rfl
          rw [this] at hget
          cases hget
          rfl
        have hrecne : chunkAux fuel ((d :: ds).drop 20) ≠ [] := by
          intro hn
          rw [show chunkAux (fuel + 1) (d :: ds) =
            (d :: ds).take 20 :: chunkAux fuel ((d :: ds).drop 20) from rfl,
            hn] at hlt
          simp at hlt
        have hdropne : (d :: ds).drop 20 ≠ [] := by
          intro hn
          exact hrecne (by rw [hn, chunkAux_of_nil])
        have hlen : 20 < (d :: ds).length := by
          by_contra hle
          push_neg at hle
          exact hdropne (List.drop_eq_nil_of_le hle)
        subst hc
        rw [List.length_take]
        simp only [List.length_cons] at hlen ⊢
        omega
      | succ j =>
        apply ih ((d :: ds).drop 20) j c
        · exact hget
        · have hll : (chunkAux (fuel + 1) (d :: ds)).length =
              (chunkAux fuel ((d :: ds).drop 20)).length + 1 := rfl
          rw [hll] at hlt
          omega

theorem string_foldl_append : ∀ (xs : List String) (init : String),
    (xs.foldl (fun r s => r ++ s) init).data =
      init.data ++ (xs.map String.data).join := by
  intro xs
  induction xs with
  | nil => intro init; simp
  | cons x xs ih =>
    intro init
    show ((xs.foldl (fun r s => r ++ s) (init ++ x))).data = _
    rw [ih (init ++ x)]
    simp

theorem text_chunks_join (s : String) : String.join (text_chunks s) = s := by
  have h1 : (String.join (text_chunks s)).data = s.data := by
    show ((text_chunks s).foldl (fun r t => r ++ t) "").data = s.data
    rw [string_foldl_append]
    unfold text_chunks
    have hmapdata : ((chunkAux s.data.length s.data).map String.mk).map
        String.data = chunkAux s.data.length s.data := by
      rw [List.map_map, show (String.data ∘ String.mk) = id from rfl,
        List.map_id]
    rw [hmapdata, chunkAux_join s.data.length s.data le_rfl]
    rfl
  exact congrArg String.mk h1

theorem text_chunks_short (s : String) :
    ∀ c ∈ text_chunks s, c.length ≤ 20 ∧ c ≠ "" := by
  intro c hc
  unfold text_chunks at hc
  rw [List.mem_map] at hc
  obtain ⟨l, hl, hcl⟩ := hc
  obtain ⟨hlen, hne⟩ := chunkAux_mem s.data.length s.data l hl
  subst hcl
  refine ⟨hlen, ?_⟩
  intro hs
  exact hne (congrArg String.data hs)

theorem text_chunks_full (s : String) : ∀ (i : Nat) (c : String),
    (text_chunks s).get? i = some c →
    i + 1 < (text_chunks s).length → c.length = 20 := by
  intro i c hget hlt
  unfold text_chunks at hget hlt
  rw [List.get?_map] at hget
  cases hg : (chunkAux s.data.length s.data).get? i with
  | none => rw [hg] at hget; cases hget
  | some l =>
    rw [hg] at hget
    cases hget
    show l.length = 20
    apply chunkAux_full s.data.length s.data i l hg
    simpa using hlt

theorem alistFind_filter_keep {β : Type} (p : String × β → Bool) :
    ∀ (l : List (String × β)) (k : String) (v : β),
      alistFind l k = some v → p (k, v) = true →
      alistFind (l.filter p) k = some v := by
  intro l
  induction l with
  | nil => intro k v h _; cases h
  | cons a rest ih =>
    intro k v h hp
    obtain ⟨ak, av⟩ := a
    by_cases hk : ak = k
    · subst hk
      simp only [alistFind, if_pos rfl] at h
      cases h
      rw [List.filter_cons, hp]
      simp [alistFind]
    · simp only [alistFind, if_neg hk] at h
      rw [List.filter_cons]
      cases hpa : p (ak, av) with
      | true =>
        simp only [if_pos rfl]
        show alistFind ((ak, av) :: rest.filter p) k = some v
        simp only [alistFind, if_neg hk]
        exact ih k v h hp
      | false =>
        simp only [Bool.false_eq_true, if_false]
        exact ih k v h hp

theorem add_message_lookup (cm : ConversationManager)
    (conversation_id role content : String) (now : Nat) (ms : List Message)
    (ca : Nat)
    (hsess : (match alistFind cm.conversations conversation_id with
      | some s => s
      | none => Session.mk [] now) = Session.mk ms ca)
    (hfresh : ¬ ca < now - cm.ttl_hours * 3600) :
    alistFind (cm.add_message conversation_id role content
        now).conversations conversation_id =
      some (Session.mk (ms ++ [Message.mk role content]) ca) ∧
    (cm.add_message conversation_id role content now).ttl_hours =
      cm.ttl_hours := by
  constructor
  · unfold ConversationManager.add_message
      ConversationManager.cleanup_old_conversations
    rw [hsess]
    apply alistFind_filter_keep
    · exact alistFind_upsert cm.conversations conversation_id _
    · simp [hfresh]
  · rfl

/-- C5 counterexample setup: a session created at time 0 that is still
present when a turn runs at time 90000 (25 hours later). -/
def c5_cm_stale : ConversationManager :=
  ConversationManager.mk
    [("c", Session.mk [Message.mk "user" "q", Message.mk "assistant" "a"] 0)] 24

/-- Terminal model oracle for C5: no tool calls, final text "ok". -/
def gen_terminal : List Content → Except String Content :=
  fun _ => Except.ok (Content.mk "model" [GPart.text "ok"])

/-- C5 counterexample: on a session older than the 24-hour retention
window, the opportunistic cleanup inside the first add_message deletes
the session right after the user message was appended to it, and the
second add_message recreates the session with only the assistant
message, so the turn does not persist the user message, contradicting
the claim that exactly two messages (user and final text) are persisted. -/
theorem c5_terminal_counterexample :
    alistFind (process_message texec_stub gen_terminal "hi" "c" 90000 1
        c5_cm_stale exec_st0).cm.conversations "c" =
      some (Session.mk [Message.mk "assistant" "ok"] 90000) ∧
    ¬ (∃ s, alistFind (process_message texec_stub gen_terminal "hi" "c" 90000 1
        c5_cm_stale exec_st0).cm.conversations "c" = some s ∧
        Message.mk "user" "hi" ∈ s.messages) := by
  constructor
  · rfl
  · rintro ⟨s, hs, hmem⟩
    rw [show alistFind (process_message texec_stub gen_terminal "hi" "c" 90000
        1 c5_cm_stale exec_st0).cm.conversations "c" =
      some (Session.mk [Message.mk "assistant" "ok"] 90000) from rfl] at hs
    cases hs
    simp at hmem

/-- C5 amended: in the terminal iteration (a model response without tool
calls) the final text is the concatenation of the non-empty text
fragments, or the fixed apology when that concatenation is empty; the
emitted events are the successive 20-character slices of the final text
in order (each chunk non-empty and at most 20 characters, every chunk
except possibly the last exactly 20, and their concatenation equal to the
final text) followed by done; and, provided the session is new or was
created within the last 24 hours (ttl_hours = 24), the turn persists
exactly two messages to it: the user message then the full final text.
(On a session older than 24 hours the cleanup inside add_message swallows
the freshly appended user message, see the counterexample.) -/
theorem c5_terminal_iteration
    (texec : ExecSt → String → List (String × JVal) → JVal × ExecSt)
    (gen : List Content → Except String Content)
    (conversation_id message : String) (now fuel : Nat)
    (contents : List Content) (st : ExecSt) (cm : ConversationManager)
    (n : Nat) (resp : Content)
    (hg : gen contents = Except.ok resp)
    (hterm : (extract_calls resp).isEmpty = true)
    (httl : cm.ttl_hours = 24)
    (hsess : alistFind cm.conversations conversation_id = none ∨
      ∃ s, alistFind cm.conversations conversation_id = some s ∧
        ¬ s.created_at < now - 86400) :
    (agent_loop texec gen conversation_id message now (fuel + 1) contents st
        cm n).events =
      (text_chunks (if String.join (extract_texts resp) = "" then apology_text
        else String.join (extract_texts resp))).map Event.text ++
        [Event.done] ∧
    String.join (text_chunks (if String.join (extract_texts resp) = "" then
      apology_text else String.join (extract_texts resp))) =
      (if String.join (extract_texts resp) = "" then apology_text
       else String.join (extract_texts resp)) ∧
    (∀ c ∈ text_chunks (if String.join (extract_texts resp) = "" then
      apology_text else String.join (extract_texts resp)),
      c.length ≤ 20 ∧ c ≠ "") ∧
    (∀ (i : Nat) (c : String),
      (text_chunks (if String.join (extract_texts resp) = "" then apology_text
        else String.join (extract_texts resp))).get? i = some c →
      i + 1 < (text_chunks (if String.join (extract_texts resp) = "" then
        apology_text else String.join (extract_texts resp))).length →
      c.length = 20) ∧
    (∃ s', alistFind (agent_loop texec gen conversation_id message now
        (fuel + 1) contents st cm n).cm.conversations conversation_id =
        some s' ∧
      s'.messages = (match alistFind cm.conversations conversation_id with
        | some s => s.messages
        | none => []) ++
        [Message.mk "user" message,
         Message.mk "assistant"
          (if String.join (extract_texts resp) = "" then apology_text
           else String.join (extract_texts resp))]) := by
  rw [agent_loop_terminal_step texec gen conversation_id message now fuel
    contents st cm n resp hg hterm]
  refine ⟨rfl, text_chunks_join _, text_chunks_short _, text_chunks_full _, ?_⟩
  rcases hsess with hnone | ⟨s, hsome, hfresh⟩
  · have h1 := add_message_lookup cm conversation_id "user" message now []
      now (by rw [hnone]) (by rw [httl]; omega)
    have h2 := add_message_lookup (cm.add_message conversation_id "user"
        message now) conversation_id "assistant"
      (if String.join (extract_texts resp) = "" then apology_text
       else String.join (extract_texts resp)) now
      [Message.mk "user" message] now (by rw [h1.1]; simp)
      (by rw [h1.2, httl]; omega)
    exact ⟨_, h2.1, by rw [hnone]; simp⟩
  · have h1 := add_message_lookup cm conversation_id "user" message now
      s.messages s.created_at (by rw [hsome])
      (by rw [httl]; simpa using hfresh)
    have h2 := add_message_lookup (cm.add_message conversation_id "user"
        message now) conversation_id "assistant"
      (if String.join (extract_texts resp) = "" then apology_text
       else String.join (extract_texts resp)) now
      (s.messages ++ [Message.mk "user" message]) s.created_at
      (by rw [h1.1]) (by rw [h1.2, httl]; simpa using hfresh)
    refine ⟨_, h2.1, ?_⟩
    rw [hsome]
    simp

theorem c5_terminal_iteration_witness :
    gen_terminal [] = Except.ok (Content.mk "model" [GPart.text "ok"]) ∧
    (extract_calls (Content.mk "model" [GPart.text "ok"])).isEmpty = true ∧
    (ConversationManager.mk [] 24).ttl_hours = 24 ∧
    alistFind (ConversationManager.mk [] 24 :
      ConversationManager).conversations "c" = none ∧
    ((agent_loop texec_stub gen_terminal "c" "hello" 50 (0 + 1) [] exec_st0
        (ConversationManager.mk [] 24) 0).events =
      (text_chunks (if String.join (extract_texts (Content.mk "model"
        [GPart.text "ok"])) = "" then apology_text
        else String.join (extract_texts (Content.mk "model"
          [GPart.text "ok"])))).map Event.text ++ [Event.done] ∧
     String.join (text_chunks (if String.join (extract_texts (Content.mk
        "model" [GPart.text "ok"])) = "" then apology_text
        else String.join (extract_texts (Content.mk "model"
          [GPart.text "ok"])))) =
      (if String.join (extract_texts (Content.mk "model"
        [GPart.text "ok"])) = "" then apology_text
       else String.join (extract_texts (Content.mk "model"
         [GPart.text "ok"]))) ∧
     (∀ c ∈ text_chunks (if String.join (extract_texts (Content.mk "model"
        [GPart.text "ok"])) = "" then apology_text
        else String.join (extract_texts (Content.mk "model"
          [GPart.text "ok"]))), c.length ≤ 20 ∧ c ≠ "") ∧
     (∀ (i : Nat) (c : String),
       (text_chunks (if String.join (extract_texts (Content.mk "model"
         [GPart.text "ok"])) = "" then apology_text
         else String.join (extract_texts (Content.mk "model"
           [GPart.text "ok"])))).get? i = some c →
       i + 1 < (text_chunks (if String.join (extract_texts (Content.mk
         "model" [GPart.text "ok"])) = "" then apology_text
         else String.join (extract_texts (Content.mk "model"
           [GPart.text "ok"])))).length →
       c.length = 20) ∧
     (∃ s', alistFind (agent_loop texec_stub gen_terminal "c" "hello" 50
        (0 + 1) [] exec_st0 (ConversationManager.mk [] 24)
        0).cm.conversations "c" = some s' ∧
       s'.messages = (match alistFind (ConversationManager.mk [] 24 :
          ConversationManager).conversations "c" with
         | some s => s.messages
         | none => []) ++
         [Message.mk "user" "hello",
          Message.mk "assistant"
           (if String.join (extract_texts (Content.mk "model"
             [GPart.text "ok"])) = "" then apology_text
            else String.join (extract_texts (Content.mk "model"
              [GPart.text "ok"])))])) :=
  ⟨rfl, rfl, rfl, rfl,
   c5_terminal_iteration texec_stub gen_terminal "c" "hello" 50 0 [] exec_st0
     (ConversationManager.mk [] 24) 0 (Content.mk "model" [GPart.text "ok"])
     rfl rfl rfl (Or.inl rfl)⟩

/-- Per-article outcome of the ingestion pipeline worker. -/
inductive ArtStatus : Type
  | embedded
  | skipped
  | failed
deriving DecidableEq, Inhabited

/-- Model of the vector index collaborator consumed by the pipeline (the
rag_pipeline VectorStore lives outside the orchestration core): document
ids for the existence check and upsert surface, plus a counter of save
invocations for the final persist. -/
structure VectorStore where
  doc_ids : List String
  saves : Nat
deriving DecidableEq, Inhabited

def VectorStore.document_exists (vs : VectorStore) (doc_id : String) : Bool :=
  vs.doc_ids.contains doc_id

def VectorStore.save (vs : VectorStore) : VectorStore :=
  { vs with saves := vs.saves + 1 }

/-- Ingestion collaborators: the article scraper (text or None), the
embedding generator (vector or None; an empty vector is also falsy in the
Python check), the md5 hex digest, and whether an upsert succeeds. -/
structure IngestEnv where
  scrape_article : String → Option String
  generate_embedding : JVal → Option (List Int)
  md5hex : String → String
  upsert_ok : String → Bool

/-- Counters returned by scrape_and_embed_articles. -/
structure IngestCounts where
  scraped : Nat
  embedded : Nat
  failed : Nat
  skipped : Nat
deriving DecidableEq, Inhabited

/-- Python len() as used on the description fallback. -/
def py_len (v : JVal) : Except String Nat :=
  match v with
  | JVal.str s => Except.ok s.data.length
  | JVal.arr xs => Except.ok xs.length
  | JVal.obj fs => Except.ok fs.length
  | _ => Except.error "TypeError: object has no len"

/-- Body of process_article inside the try block: yields the outcome and
the document id to upsert when the upsert succeeded (the store change is
applied by the caller); a raised exception is an Except.error. Follows
agent_service.py process_article line by line. -/
def process_article_body (env : IngestEnv) (vs : VectorStore)
    (ticker : String) (a : JVal) : Except String (ArtStatus × Option String) := do
  let urlv ← dget a "article_url" (JVal.str "")
  let article_url ← (match urlv with
    | JVal.str s => Except.ok s
    | _ => Except.error "AttributeError: url has no encode")
  let doc_id := ticker ++ "_news_" ++
    String.mk ((env.md5hex article_url).data.take 12)
  if vs.document_exists doc_id then
    pure (ArtStatus.skipped, none)
  else do
    let content0 : JVal :=
      match env.scrape_article article_url with
      | some c => JVal.str c
      | none => JVal.null
    let contentOpt ← (if truthy content0 = true then
        pure (some content0)
      else do
        let desc ← dget a "description" (JVal.str "")
        if truthy desc = false then pure none
        else do
          let n ← py_len desc
          if n < 50 then pure none else pure (some desc))
    match contentOpt with
    | none => pure (ArtStatus.failed, none)
    | some content =>
      match env.generate_embedding content with
      | none => pure (ArtStatus.failed, none)
      | some [] => pure (ArtStatus.failed, none)
      | some (_ :: _) => do
        let _title ← dget a "title" (JVal.str "")
        let _pdate ← dget a "published_utc" (JVal.str "")
        let pub ← dget a "publisher" (JVal.obj [])
        let _source ← dget pub "name" (JVal.str "Unknown")
        let _preview ← pySlice content 200
        if env.upsert_ok doc_id then
          pure (ArtStatus.embedded, some doc_id)
        else
          pure (ArtStatus.failed, none)

/-- Store update produced by a successful upsert. -/
def apply_upsert (vs : VectorStore) : Option String → VectorStore
  | none => vs
  | some did =>
    { vs with doc_ids :=
        if vs.doc_ids.contains did then vs.doc_ids else vs.doc_ids ++ [did] }

/-- One worker task: the bare except of process_article maps any raised
exception to the failed outcome with the store unchanged. -/
def process_article (env : IngestEnv) (vs : VectorStore) (ticker : String)
    (a : JVal) : ArtStatus × VectorStore :=
  match process_article_body env vs ticker a with
  | Except.ok (stt, add) => (stt, apply_upsert vs add)
  | Except.error _ => (ArtStatus.failed, vs)

def bump_counts (c : IngestCounts) : ArtStatus → IngestCounts
  | ArtStatus.embedded =>
    { c with embedded := c.embedded + 1, scraped := c.scraped + 1 }
  | ArtStatus.skipped => { c with skipped := c.skipped + 1 }
  | ArtStatus.failed => { c with failed := c.failed + 1 }

/-- One step of the result-collection loop: run the worker on the
current store and bump the counter bucket named by its outcome. -/
def ingest_step (env : IngestEnv) (ticker : String)
    (acc : IngestCounts × VectorStore) (a : JVal) :
    IngestCounts × VectorStore :=
  let pr := process_article env acc.2 ticker a
  (bump_counts acc.1 pr.1, pr.2)

/-- AgentService.scrape_and_embed_articles: at most the first 20 articles
are submitted to the pool; the counters are aggregated commutatively as
futures complete, so this sequential fold is a faithful linearization of
the bounded worker pool (max_workers = 5); the index is saved once at the
end only when something was embedded. -/
def scrape_and_embed_articles (env : IngestEnv) (ticker : String)
    (articles : List JVal) (vs : VectorStore) : IngestCounts × VectorStore :=
  let r := (articles.take 20).foldl (ingest_step env ticker)
    (IngestCounts.mk 0 0 0 0, vs)
  if r.1.embedded > 0 then (r.1, r.2.save) else r

theorem bump_counts_sum (c : IngestCounts) (stt : ArtStatus) :
    (bump_counts c stt).scraped + (bump_counts c stt).failed +
      (bump_counts c stt).skipped =
      c.scraped + c.failed + c.skipped + 1 := by
  cases stt <;> simp [bump_counts] <;> omega

theorem bump_counts_embedded (c : IngestCounts) (stt : ArtStatus) :
    (bump_counts c stt).embedded + c.scraped =
      (bump_counts c stt).scraped + c.embedded := by
  cases stt <;> simp [bump_counts] <;> omega

theorem process_article_saves (env : IngestEnv) (vs : VectorStore)
    (ticker : String) (a : JVal) :
    (process_article env vs ticker a).2.saves = vs.saves := by
  unfold process_article
  cases process_article_body env vs ticker a with
  | error e => rfl
  | ok r =>
    obtain ⟨stt, add⟩ := r
    cases add with
    | none => rfl
    | some did => rfl

theorem ingest_fold (env : IngestEnv) (ticker : String) :
    ∀ (l : List JVal) (c : IngestCounts) (vs : VectorStore),
      ((l.foldl (ingest_step env ticker) (c, vs)).1.scraped +
        (l.foldl (ingest_step env ticker) (c, vs)).1.failed +
        (l.foldl (ingest_step env ticker) (c, vs)).1.skipped =
        c.scraped + c.failed + c.skipped + l.length) ∧
      ((l.foldl (ingest_step env ticker) (c, vs)).1.embedded + c.scraped =
        (l.foldl (ingest_step env ticker) (c, vs)).1.scraped + c.embedded) ∧
      (l.foldl (ingest_step env ticker) (c, vs)).2.saves = vs.saves := by
  intro l
  induction l with
  | nil =>
    intro c vs
    refine ⟨by simp, ?_, rfl⟩
    show c.embedded + c.scraped = c.scraped + c.embedded
    omega
  | cons a l ih =>
    intro c vs
    rw [List.foldl_cons]
    have hstep : ingest_step env ticker (c, vs) a =
        (bump_counts c (process_article env vs ticker a).1,
         (process_article env vs ticker a).2) := rfl
    rw [hstep]
    obtain ⟨h1, h2, h3⟩ := ih
      (bump_counts c (process_article env vs ticker a).1)
      (process_article env vs ticker a).2
    refine ⟨?_, ?_, ?_⟩
    · rw [h1, bump_counts_sum]
      simp only [List.length_cons]
      omega
    · have hb := bump_counts_embedded c (process_article env vs ticker a).1
      omega
    · rw [h3, process_article_saves]

/-- C7: for every input batch, collaborator behavior and initial store,
ingestion processes at most the first 20 articles, every processed
article lands in exactly one of the three outcome buckets with scraped
incremented exactly when embedded is, so scraped + failed + skipped
equals min(N, 20) and embedded = scraped (hence embedded at most
scraped); the index save runs exactly once at the end when at least one
document was embedded and not at all otherwise. -/
theorem c7_ingestion_counts (env : IngestEnv) (ticker : String)
    (articles : List JVal) (vs : VectorStore) :
    (scrape_and_embed_articles env ticker articles vs).1.scraped +
      (scrape_and_embed_articles env ticker articles vs).1.failed +
      (scrape_and_embed_articles env ticker articles vs).1.skipped =
      min articles.length 20 ∧
    (scrape_and_embed_articles env ticker articles vs).1.embedded =
      (scrape_and_embed_articles env ticker articles vs).1.scraped ∧
    (scrape_and_embed_articles env ticker articles vs).1.embedded ≤
      (scrape_and_embed_articles env ticker articles vs).1.scraped ∧
    (scrape_and_embed_articles env ticker articles vs).2.saves =
      vs.saves + (if 0 < (scrape_and_embed_articles env ticker articles
        vs).1.embedded then 1 else 0) := by
  obtain ⟨h1, h2, h3⟩ := ingest_fold env ticker (articles.take 20)
    (IngestCounts.mk 0 0 0 0) vs
  have hlen : (articles.take 20).length = min articles.length 20 := by
    rw [List.length_take, Nat.min_comm]
  rw [hlen] at h1
  have hs : scrape_and_embed_articles env ticker articles vs =
      if ((articles.take 20).foldl (ingest_step env ticker)
          (IngestCounts.mk 0 0 0 0, vs)).1.embedded > 0 then
        (((articles.take 20).foldl (ingest_step env ticker)
          (IngestCounts.mk 0 0 0 0, vs)).1,
         ((articles.take 20).foldl (ingest_step env ticker)
          (IngestCounts.mk 0 0 0 0, vs)).2.save)
      else (articles.take 20).foldl (ingest_step env ticker)
          (IngestCounts.mk 0 0 0 0, vs) := rfl
  rw [hs]
  set F := (articles.take 20).foldl (ingest_step env ticker)
    (IngestCounts.mk 0 0 0 0, vs)
  have h1a : F.1.scraped + F.1.failed + F.1.skipped =
      0 + 0 + 0 + min articles.length 20 := h1
  have h2a : F.1.embedded + 0 = F.1.scraped + 0 := h2
  have hA : F.1.scraped + F.1.failed + F.1.skipped =
      min articles.length 20 := by omega
  have hB : F.1.embedded = F.1.scraped := by omega
  by_cases he : F.1.embedded > 0
  · rw [if_pos he]
    have he2 : 0 < (F.1, F.2.save).1.embedded := he
    refine ⟨hA, hB, le_of_eq hB, ?_⟩
    rw [if_pos he2]
    show F.2.save.saves = vs.saves + 1
    rw [show F.2.save.saves = F.2.saves + 1 from rfl, h3]
  · rw [if_neg he]
    refine ⟨hA, hB, le_of_eq hB, ?_⟩
    rw [if_neg he]
    omega

end MarketLens
